import Mathlib

/-!
Verification of the HLS Bridge (mediasoup WebRTC to HLS converter backend).

This file gives a shallow embedding of the backend HLS bridge code:

* the pure session-description synthesizer `createSdpString`
  (rtp-to-hls module, the `createSdpString` function), and
* the `HLSManager` controller class plus the `rtp-to-hls` module state
  (`startRtpToHlsConverter`, `stopHlsConverter`, `runFfmpeg`) as an
  event-driven transition system over the Node.js single-threaded
  execution model: code between `await` points runs atomically, promise
  reactions (microtasks) run before any timer or I/O callback, and the
  environment chooses the timing of timer firings and of the completion
  of external asynchronous operations.

Theorems about the claims follow the definitions.
-/

namespace HLSBridge

/-! ## Session description synthesizer (createSdpString) -/

/-- Negotiated codec of one consumer, mirroring the fields of
`consumer.rtpParameters.codecs[0]` that `createSdpString` reads:
`payloadType`, `mimeType`, `clockRate`, `channels` (possibly undefined),
and `parameters` (an object, modelled as an insertion-ordered
key/value list; an absent or empty object is the empty list). -/
structure RtpCodec where
  payloadType : Nat
  mimeType : String
  clockRate : Nat
  channels : Option Nat
  parameters : List (String × String)
deriving DecidableEq, Repr

/-- One RTP endpoint input of the synthesizer: the plain transport local
port (`transport.tuple.localPort`) together with the negotiated codec of
the consumer attached to it. -/
structure EndpointInput where
  localPort : Nat
  codec : RtpCodec
deriving DecidableEq, Repr

/-- Embedding of the `formatParams` helper inside `createSdpString`:
returns the empty string when the parameter object is absent or empty,
otherwise joins `key=value` entries with a semicolon. -/
def formatParams (params : List (String × String)) : String :=
  match params with
  | [] => ""
  | ps => String.intercalate ";" (ps.map (fun kv => kv.1 ++ "=" ++ kv.2))

/-- Embedding of the JavaScript expression `mimeType.split("/")[1]`
inside a template literal: the second slash-separated component, or the
string "undefined" when there is none (JavaScript interpolates the
undefined array element as the text "undefined"). -/
def mimeSubtype (m : String) : String :=
  ((m.splitOn "/").drop 1).headD "undefined"

/-- Embedding of the JavaScript expression `audioCodec.channels || 2`:
an absent channel count, and also a channel count of 0 (falsy in
JavaScript), yield 2. -/
def channelsOr2 (c : Option Nat) : Nat :=
  match c with
  | none => 2
  | some 0 => 2
  | some n => n

/-- The session header lines of the synthesized SDP (the first five
entries pushed onto `sdpLines`). -/
def sdpHeaderLines : List String :=
  ["v=0", "o=- 0 0 IN IP4 127.0.0.1", "s=Mediasoup Stream",
   "c=IN IP4 127.0.0.1", "t=0 0"]

/-- The video media section of the synthesized SDP: the `m=video` line,
the `a=rtpmap` line, the `a=fmtp` line when `formatParams` is non-empty
(the code pushes it under `if (videoParams)`), and the `a=sendonly`
marker, in the push order of the source. -/
def sdpVideoSection (video : EndpointInput) : List String :=
  let videoCodec := video.codec
  let videoParams := formatParams videoCodec.parameters
  ["m=video " ++ toString video.localPort ++ " RTP/AVP "
      ++ toString videoCodec.payloadType,
   "a=rtpmap:" ++ toString videoCodec.payloadType ++ " "
      ++ mimeSubtype videoCodec.mimeType ++ "/" ++ toString videoCodec.clockRate]
  ++ (if videoParams ≠ "" then
        ["a=fmtp:" ++ toString videoCodec.payloadType ++ " " ++ videoParams]
      else [])
  ++ ["a=sendonly"]

/-- The audio rtpmap line: clock rate followed by the channel count,
with the `channels || 2` fallback of the source. -/
def sdpAudioRtpmapLine (audio : EndpointInput) : String :=
  "a=rtpmap:" ++ toString audio.codec.payloadType ++ " "
    ++ mimeSubtype audio.codec.mimeType ++ "/" ++ toString audio.codec.clockRate
    ++ "/" ++ toString (channelsOr2 audio.codec.channels)

/-- The audio media section of the synthesized SDP, in the push order of
the source. -/
def sdpAudioSection (audio : EndpointInput) : List String :=
  let audioCodec := audio.codec
  let audioParams := formatParams audioCodec.parameters
  ["m=audio " ++ toString audio.localPort ++ " RTP/AVP "
      ++ toString audioCodec.payloadType,
   sdpAudioRtpmapLine audio]
  ++ (if audioParams ≠ "" then
        ["a=fmtp:" ++ toString audioCodec.payloadType ++ " " ++ audioParams]
      else [])
  ++ ["a=sendonly"]

/-- The full `sdpLines` array built by `createSdpString`: the pushes of
the source accumulate exactly the header, the video section and the
audio section in this order. -/
def sdpLines (video audio : EndpointInput) : List String :=
  sdpHeaderLines ++ sdpVideoSection video ++ sdpAudioSection audio

/-- Embedding of `createSdpString`: the lines joined with CRLF and a
trailing CRLF, as in `sdpLines.join("\r\n") + "\r\n"`. It is a total
function of the two endpoint inputs. -/
def createSdpString (video audio : EndpointInput) : String :=
  String.intercalate "\r\n" (sdpLines video audio) ++ "\r\n"

/-! ## The HLS Bridge controller as a transition system

The `HLSManager` singleton together with the module-level state of
`rtp-to-hls.ts` is embedded as a transition system. Producer ids,
timer ids, promise ids and subprocess pids are natural numbers drawn
from a single fresh-id counter. JavaScript code between two `await`
points runs atomically; every such segment is one step of the system.
Promise reactions run before any timer or I/O callback (Node.js
microtask semantics), so the continuation of an `await` on an
already-settled promise is executed inside the segment that settles
(or finds settled) the promise. The environment chooses when timers
fire, when external asynchronous operations (transport creation,
consumer creation, transport/consumer close, sleeps) complete and
whether they succeed, and when a spawned ffmpeg process exits. -/

/-- Producer media kind. -/
inductive Kind
  | video
  | audio
deriving DecidableEq, Repr

/-- Observable events recorded in the execution trace:
`spawn pid` is the spawn of an ffmpeg subprocess by `runFfmpeg`;
`kill pid` is `ffmpegProcess.kill()` inside `stopHlsConverter`;
`supStop` marks an invocation of `stopHlsConverter` (a Supervisor
stop call); `stopDone` marks `stopHlsConverter` running to completion;
`tryStart` marks an invocation of `tryStartConverter`;
`procExited pid` marks the asynchronous exit of a spawned subprocess. -/
inductive Ev
  | spawn (pid : Nat)
  | kill (pid : Nat)
  | supStop
  | stopDone
  | tryStart
  | procExited (pid : Nat)
deriving DecidableEq, Repr

abbrev Trace := List Ev

/-- The mutable state: the private fields of the `HLSManager` class
(`isConverterRunning`, `videoProducer`, `audioProducer`,
`converterStartPromise`, `restartTimeout`) and the module-level
variables of `rtp-to-hls.ts` (`ffmpegProcess`, `hlsTransports`,
`hlsConsumers`), plus bookkeeping that the JavaScript runtime keeps
implicitly: the set of scheduled, uncancelled timers (`liveTimers`; the
`restartTimeout` field may point at an already-fired timer, and a timer
overwritten in the field without `clearTimeout` stays alive), the
registered `transportclose` handlers, the settled promises with their
outcome, the spawned subprocess pids and the exited ones, and a
fresh-id counter. -/
structure CState where
  isConverterRunning : Bool
  videoProducer : Option Nat
  audioProducer : Option Nat
  converterStartPromise : Option Nat
  restartTimeout : Option Nat
  liveTimers : List Nat
  ffmpegProcess : Option Nat
  hlsVideoTransport : Bool
  hlsAudioTransport : Bool
  hlsVideoConsumer : Bool
  hlsAudioConsumer : Bool
  handlers : List (Kind × Nat)
  settled : List (Nat × Bool)
  spawned : List Nat
  exited : List Nat
  nextId : Nat
deriving DecidableEq, Repr

/-- The pending `await` position of a suspended `stopHlsConverter`
invocation: awaiting the close of the video transport, the audio
transport, the video consumer, or the audio consumer. -/
inductive SPc
  | vT
  | aT
  | vC
  | aC
deriving DecidableEq, Repr

/-- What runs when a `stopConverter` invocation completes: nothing (the
caller discards the result: the transportclose handler, the shutdown
hooks, an operator stop), or the tail of a suspended `setProducer`
call for the given kind and producer id. -/
inductive KCont
  | nothing
  | setP (kind : Kind) (pid : Nat)
deriving DecidableEq, Repr

/-- What runs when a suspended `stopHlsConverter` invocation completes:
the `forceStopConverter` call inside `startConverterInternal` (next:
the 3000 ms sleep), the call at the head of `startRtpToHlsConverter`
(next: the 1000 ms sleep), the cleanup-on-failure call in the `catch`
of `startRtpToHlsConverter` (next: rethrow, rejecting the start
promise `p`), or the call inside `stopConverter` (next: the
continuation of `stopConverter`). -/
inductive SCont
  | startForce (p : Nat)
  | startEntry (p : Nat)
  | startCatch (p : Nat)
  | stopConv (k : KCont)
deriving DecidableEq, Repr

/-- A suspended asynchronous task (one `await` continuation):
a `stopHlsConverter` invocation at close position `pc` with
continuation `k`; a `stopConverter` invocation awaiting the start
promise `p`; the start operation (promise `p`) awaiting the 3000 ms
port-release sleep, the 1000 ms sleep, the creation of the video or
audio plain transport, or the creation of the video or audio consumer;
or the `tryStartConverter` invocation awaiting the start promise it
created. -/
inductive Task
  | stopHls (pc : SPc) (k : SCont)
  | stopAwaitP (p : Nat) (k : KCont)
  | startSleep3000 (p : Nat)
  | startSleep1000 (p : Nat)
  | startCreateVT (p : Nat)
  | startCreateAT (p : Nat)
  | startConsumeV (p : Nat)
  | startConsumeA (p : Nat)
  | tryAwait (p : Nat)
deriving DecidableEq, Repr

/-- The whole system: the state, the pool of suspended tasks (in
creation order, which for awaiters of the same promise is their
registration order), and the event trace. -/
structure Sys where
  st : CState
  tasks : List Task
  trace : Trace
deriving DecidableEq, Repr

/-- The initial system: every field null/false/empty. -/
def initSys : Sys :=
  { st := { isConverterRunning := false, videoProducer := none,
            audioProducer := none, converterStartPromise := none,
            restartTimeout := none, liveTimers := [], ffmpegProcess := none,
            hlsVideoTransport := false, hlsAudioTransport := false,
            hlsVideoConsumer := false, hlsAudioConsumer := false,
            handlers := [], settled := [], spawned := [], exited := [],
            nextId := 0 }
    tasks := []
    trace := [] }

/-! ### The segments of stopHlsConverter -/

/-- The synchronous prefix of a `stopHlsConverter` invocation: kill the
ffmpeg process if present and null the handle, then find the first
non-null handle whose `close()` the function will await, or `none`
when the body runs to completion without a pending close. The emitted
events record the Supervisor stop call, the kill, and completion. -/
def stopHlsCore (c : CState) : CState × Trace × Option SPc :=
  let (c1, evs) :=
    match c.ffmpegProcess with
    | some pid => ({ c with ffmpegProcess := none }, [Ev.supStop, Ev.kill pid])
    | none => (c, [Ev.supStop])
  let pc :=
    if c1.hlsVideoTransport then some SPc.vT
    else if c1.hlsAudioTransport then some SPc.aT
    else if c1.hlsVideoConsumer then some SPc.vC
    else if c1.hlsAudioConsumer then some SPc.aC
    else none
  (c1, evs ++ (if pc.isNone then [Ev.stopDone] else []), pc)

/-- Resumption of a suspended `stopHlsConverter` after the awaited
`close()` resolves: null the handle just closed and advance to the
next non-null handle, or complete. -/
def stopHlsAdvance (c : CState) (pc : SPc) : CState × Trace × Option SPc :=
  match pc with
  | SPc.vT =>
    let c1 := { c with hlsVideoTransport := false }
    let pc1 :=
      if c1.hlsAudioTransport then some SPc.aT
      else if c1.hlsVideoConsumer then some SPc.vC
      else if c1.hlsAudioConsumer then some SPc.aC
      else none
    (c1, if pc1.isNone then [Ev.stopDone] else [], pc1)
  | SPc.aT =>
    let c1 := { c with hlsAudioTransport := false }
    let pc1 :=
      if c1.hlsVideoConsumer then some SPc.vC
      else if c1.hlsAudioConsumer then some SPc.aC
      else none
    (c1, if pc1.isNone then [Ev.stopDone] else [], pc1)
  | SPc.vC =>
    let c1 := { c with hlsVideoConsumer := false }
    let pc1 := if c1.hlsAudioConsumer then some SPc.aC else none
    (c1, if pc1.isNone then [Ev.stopDone] else [], pc1)
  | SPc.aC =>
    ({ c with hlsAudioConsumer := false }, [Ev.stopDone], none)

/-! ### Continuations -/

/-- The tail of `setProducer` after a (possibly suspended) internal
`stopConverter` call: record the producer in its slot, register the
`transportclose` handler, and schedule a fresh 500 ms debounce timer
into `restartTimeout` (overwriting the field; the previously scheduled
timer was cancelled at the head of `setProducer`). -/
def setProducerTail (c : CState) (kind : Kind) (pid : Nat) : CState :=
  let c1 :=
    match kind with
    | Kind.video => { c with videoProducer := some pid }
    | Kind.audio => { c with audioProducer := some pid }
  let t := c1.nextId
  { c1 with handlers := c1.handlers ++ [(kind, pid)],
            restartTimeout := some t,
            liveTimers := c1.liveTimers ++ [t],
            nextId := c1.nextId + 1 }

/-- Run the continuation of a completed `stopConverter` invocation. -/
def kContRun (c : CState) (k : KCont) : CState :=
  match k with
  | KCont.nothing => c
  | KCont.setP kind pid => setProducerTail c kind pid

/-- Embedding of `clearTimeout(this.restartTimeout);
this.restartTimeout = null` guarded by a null check: cancel the timer
the field points at (a no-op on the live-timer list when it already
fired) and null the field. -/
def cancelRestartTimer (c : CState) : CState :=
  match c.restartTimeout with
  | some t => { c with restartTimeout := none,
                       liveTimers := c.liveTimers.filter (fun x => x ≠ t) }
  | none => c

/-- Invoke `stopHlsConverter` from inside `stopConverter` (continuation
`k` after it completes). If the body suspends at a close, a task is
added; otherwise the continuation runs in the same segment. -/
def enterStopHlsStopConv (sys : Sys) (k : KCont) : Sys :=
  let r := stopHlsCore sys.st
  match r.2.2 with
  | some pc =>
    { st := r.1, tasks := sys.tasks ++ [Task.stopHls pc (SCont.stopConv k)],
      trace := sys.trace ++ r.2.1 }
  | none => { st := kContRun r.1 k, tasks := sys.tasks, trace := sys.trace ++ r.2.1 }

/-- The reaction of one task to the settlement of promise `p` with
outcome `ok`. A task not awaiting `p` is kept. The `tryStartConverter`
continuation logs on success, clears `isConverterRunning` in its
`catch` on failure, and in its `finally` nulls
`converterStartPromise`. A `stopConverter` continuation nulls
`converterStartPromise` and invokes `stopHlsConverter`. -/
def wakeTask (p : Nat) (ok : Bool) (acc : Sys) (t : Task) : Sys :=
  match t with
  | Task.tryAwait q =>
    if q = p then
      let c1 := if ok then acc.st else { acc.st with isConverterRunning := false }
      { acc with st := { c1 with converterStartPromise := none } }
    else { acc with tasks := acc.tasks ++ [t] }
  | Task.stopAwaitP q k =>
    if q = p then
      enterStopHlsStopConv
        { acc with st := { acc.st with converterStartPromise := none } } k
    else { acc with tasks := acc.tasks ++ [t] }
  | t => { acc with tasks := acc.tasks ++ [t] }

/-- Settling of the start promise `p` with outcome `ok`: record the
settlement and run, in registration order and before any further
environment event, the continuations of all tasks awaiting `p`. -/
def settleP (sys : Sys) (p : Nat) (ok : Bool) : Sys :=
  let base : Sys :=
    { st := { sys.st with settled := sys.st.settled ++ [(p, ok)] },
      tasks := [], trace := sys.trace }
  sys.tasks.foldl (wakeTask p ok) base

/-! ### stopConverter -/

/-- The controller state after the head of the non-idle path of
`stopConverter`: the running flag cleared and any pending restart
timer cancelled. -/
def stopConvHead (c : CState) : CState :=
  cancelRestartTimer { c with isConverterRunning := false }

/-- Invocation of `stopConverter` with continuation `k`. It returns at
once when the converter is not running and no start is in flight;
otherwise it clears the running flag, cancels any pending restart
timer, waits for an in-flight start promise if there is one (a settled
promise is continued past in the same burst of microtasks), and then
invokes `stopHlsConverter`. -/
def enterStopConverter (sys : Sys) (k : KCont) : Sys :=
  if sys.st.isConverterRunning = false ∧ sys.st.converterStartPromise = none then
    { sys with st := kContRun sys.st k }
  else
    match (stopConvHead sys.st).converterStartPromise with
    | some p =>
      if ((stopConvHead sys.st).settled.lookup p).isSome then
        enterStopHlsStopConv
          { sys with st := { stopConvHead sys.st with converterStartPromise := none } } k
      else
        { sys with st := stopConvHead sys.st,
                   tasks := sys.tasks ++ [Task.stopAwaitP p k] }
    | none => enterStopHlsStopConv { sys with st := stopConvHead sys.st } k

/-! ### setProducer and tryStartConverter -/

/-- Invocation of `setProducer(kind, producer)`: cancel any pending
debounce timer; if a different producer occupies the slot, await an
internal `stopConverter` before recording the new producer; the tail
(`setProducerTail`) records the producer, registers the close handler
and schedules the new debounce timer. -/
def setProducerCall (sys : Sys) (kind : Kind) (pid : Nat) : Sys :=
  let c1 := cancelRestartTimer sys.st
  let conflict :=
    match kind with
    | Kind.video => match c1.videoProducer with
      | some q => q != pid
      | none => false
    | Kind.audio => match c1.audioProducer with
      | some q => q != pid
      | none => false
  if conflict then enterStopConverter { sys with st := c1 } (KCont.setP kind pid)
  else { sys with st := setProducerTail c1 kind pid }

/-- The controller state read by the `stopHlsConverter` call inside
`forceStopConverter`: a fresh promise id has been drawn, and the
running flag, set to true by `tryStartConverter`, has been cleared
again by `forceStopConverter` within the same synchronous segment. -/
def startForceState (c : CState) : CState :=
  { { c with nextId := c.nextId + 1, isConverterRunning := true }
    with isConverterRunning := false }

/-- The guarded tail of `tryStartConverter`: set the running flag,
start `startConverterInternal` synchronously up to its first
suspension (`forceStopConverter` clears the running flag again within
the same segment and invokes `stopHlsConverter`; the first suspension
is a pending close inside it or else the 3000 ms sleep), assign the
pending promise to `converterStartPromise`, and await it. -/
def startCreation (sys : Sys) : Sys :=
  let p := sys.st.nextId
  let r := stopHlsCore (startForceState sys.st)
  let c4 := { r.1 with converterStartPromise := some p }
  let startTask :=
    match r.2.2 with
    | some pc => Task.stopHls pc (SCont.startForce p)
    | none => Task.startSleep3000 p
  { st := c4, tasks := sys.tasks ++ [startTask, Task.tryAwait p],
    trace := sys.trace ++ r.2.1 }

/-- Invocation of `tryStartConverter` (by a fired debounce timer; the
timer callback discards the returned promise). It returns at once when
the running flag is set or a producer is missing, and also when a
start is already in flight; otherwise it runs `startCreation`. -/
def tryStartConverterCall (sys : Sys) : Sys :=
  let sys0 := { sys with trace := sys.trace ++ [Ev.tryStart] }
  let c := sys0.st
  if c.isConverterRunning || c.videoProducer.isNone || c.audioProducer.isNone then
    sys0
  else if c.converterStartPromise.isSome then
    sys0
  else
    startCreation sys0

/-! ### transportclose handlers -/

/-- One registered `transportclose` handler firing: clear the slot if
it still refers to this producer id, and when both slots are empty
invoke `stopConverter` (fire-and-forget). -/
def runHandler (sys : Sys) (kind : Kind) (pid : Nat) : Sys :=
  let c := sys.st
  let c1 :=
    match kind with
    | Kind.video =>
      if c.videoProducer = some pid then { c with videoProducer := none } else c
    | Kind.audio =>
      if c.audioProducer = some pid then { c with audioProducer := none } else c
  if c1.videoProducer = none ∧ c1.audioProducer = none then
    enterStopConverter { sys with st := c1 } KCont.nothing
  else { sys with st := c1 }

/-- The transport of producer `pid` closes: every handler registered
for `pid` fires, in registration order, within one synchronous
segment; the handlers are then deregistered. -/
def closeProducerCall (sys : Sys) (pid : Nat) : Sys :=
  let fired := sys.st.handlers.filter (fun h => h.2 == pid)
  let sys1 :=
    { sys with st := { sys.st with
        handlers := sys.st.handlers.filter (fun h => h.2 != pid) } }
  fired.foldl (fun acc h => runHandler acc h.1 pid) sys1

/-! ### Resumption of suspended tasks -/

/-- The cleanup-on-failure path in the `catch` of
`startRtpToHlsConverter`: invoke `stopHlsConverter`, then rethrow,
rejecting the start promise `p`. -/
def startFailCleanup (sys : Sys) (i : Nat) (p : Nat) : Sys :=
  let r := stopHlsCore sys.st
  let sys1 := { sys with st := r.1, trace := sys.trace ++ r.2.1 }
  match r.2.2 with
  | some pc => { sys1 with tasks := sys1.tasks.set i (Task.stopHls pc (SCont.startCatch p)) }
  | none => settleP { sys1 with tasks := sys1.tasks.eraseIdx i } p false

/-- Resumption of task `i` when the external operation it awaits
completes; `ok` is the outcome of a fallible operation (transport or
consumer creation) and is ignored for closes and sleeps. Promise
awaiters (`tryAwait`, `stopAwaitP`) are not resumed by the
environment: they run when their promise settles. -/
def resumeTask (sys : Sys) (i : Nat) (ok : Bool) : Option Sys :=
  match sys.tasks[i]? with
  | none => none
  | some task =>
    match task with
    | Task.stopHls pc k =>
      let r := stopHlsAdvance sys.st pc
      let sys1 := { sys with st := r.1, trace := sys.trace ++ r.2.1 }
      match r.2.2 with
      | some pc1 => some { sys1 with tasks := sys1.tasks.set i (Task.stopHls pc1 k) }
      | none =>
        let sysE := { sys1 with tasks := sys1.tasks.eraseIdx i }
        match k with
        | SCont.startForce p =>
          some { sysE with tasks := sysE.tasks ++ [Task.startSleep3000 p] }
        | SCont.startEntry p =>
          some { sysE with tasks := sysE.tasks ++ [Task.startSleep1000 p] }
        | SCont.startCatch p => some (settleP sysE p false)
        | SCont.stopConv k2 => some { sysE with st := kContRun sysE.st k2 }
    | Task.startSleep3000 p =>
      let r := stopHlsCore sys.st
      let sys1 := { sys with st := r.1, trace := sys.trace ++ r.2.1 }
      match r.2.2 with
      | some pc =>
        some { sys1 with tasks := sys1.tasks.set i (Task.stopHls pc (SCont.startEntry p)) }
      | none => some { sys1 with tasks := sys1.tasks.set i (Task.startSleep1000 p) }
    | Task.startSleep1000 p =>
      some { sys with tasks := sys.tasks.set i (Task.startCreateVT p) }
    | Task.startCreateVT p =>
      if ok then
        some { sys with st := { sys.st with hlsVideoTransport := true },
                        tasks := sys.tasks.set i (Task.startCreateAT p) }
      else some (startFailCleanup sys i p)
    | Task.startCreateAT p =>
      if ok then
        some { sys with st := { sys.st with hlsAudioTransport := true },
                        tasks := sys.tasks.set i (Task.startConsumeV p) }
      else some (startFailCleanup sys i p)
    | Task.startConsumeV p =>
      if ok then
        some { sys with st := { sys.st with hlsVideoConsumer := true },
                        tasks := sys.tasks.set i (Task.startConsumeA p) }
      else some (startFailCleanup sys i p)
    | Task.startConsumeA p =>
      if ok then
        let pid := sys.st.nextId
        let c1 := { sys.st with hlsAudioConsumer := true,
                                ffmpegProcess := some pid,
                                spawned := sys.st.spawned ++ [pid],
                                nextId := sys.st.nextId + 1 }
        let sysE := { sys with st := c1, trace := sys.trace ++ [Ev.spawn pid],
                               tasks := sys.tasks.eraseIdx i }
        some (settleP sysE p true)
      else some (startFailCleanup sys i p)
    | Task.tryAwait _ => none
    | Task.stopAwaitP _ _ => none

/-! ### Environment steps -/

/-- The environment events: a `setProducer` call from the signaling
layer; the firing of a scheduled timer; an external `stopConverter`
call (shutdown hook or operator stop); the closure of the transport of
producer `pid`; the completion, with outcome `ok` where applicable, of
the external operation awaited by task `i`; and the asynchronous exit
of a spawned ffmpeg process (its `close` handler nulls the module
variable `ffmpegProcess` unconditionally). -/
inductive EnvStep
  | setP (kind : Kind) (pid : Nat)
  | timer (t : Nat)
  | stopCall
  | closeProd (pid : Nat)
  | resume (i : Nat) (ok : Bool)
  | procExit (pid : Nat)
deriving DecidableEq, Repr

/-- One step of the system under an environment event; `none` when the
event is not enabled (unknown timer, task not resumable, pid not a
live subprocess). -/
def stepOpt (sys : Sys) : EnvStep → Option Sys
  | EnvStep.setP kind pid => some (setProducerCall sys kind pid)
  | EnvStep.timer t =>
    if sys.st.liveTimers.contains t then
      some (tryStartConverterCall
        { sys with st := { sys.st with
            liveTimers := sys.st.liveTimers.filter (fun x => x != t) } })
    else none
  | EnvStep.stopCall => some (enterStopConverter sys KCont.nothing)
  | EnvStep.closeProd pid => some (closeProducerCall sys pid)
  | EnvStep.resume i ok => resumeTask sys i ok
  | EnvStep.procExit pid =>
    if sys.st.spawned.contains pid && !(sys.st.exited.contains pid) then
      some { sys with
              st := { sys.st with ffmpegProcess := none,
                                  exited := sys.st.exited ++ [pid] },
              trace := sys.trace ++ [Ev.procExited pid] }
    else none

/-- Run a list of environment events from a system, skipping disabled
events. -/
def run (sys : Sys) (es : List EnvStep) : Sys :=
  es.foldl (fun s e => (stepOpt s e).getD s) sys

/-- Reachability from the initial system under arbitrary environment
events. -/
inductive Reachable : Sys → Prop
  | init : Reachable initSys
  | step {s s2 : Sys} {e : EnvStep} :
      Reachable s → stepOpt s e = some s2 → Reachable s2

/-- The state reported by `getState()` of the `HLSManager`. -/
structure HLSStatus where
  isConverterRunning : Bool
  hasVideoProducer : Bool
  hasAudioProducer : Bool
  videoProducerId : Option Nat
  audioProducerId : Option Nat
deriving DecidableEq, Repr

/-- Embedding of `HLSManager.getState()`. -/
def getState (c : CState) : HLSStatus :=
  { isConverterRunning := c.isConverterRunning,
    hasVideoProducer := c.videoProducer.isSome,
    hasAudioProducer := c.audioProducer.isSome,
    videoProducerId := c.videoProducer,
    audioProducerId := c.audioProducer }

/-- A sample video endpoint (VP8 with one format parameter), used to
instantiate universally quantified theorems. -/
def sampleVideoEndpoint : EndpointInput :=
  { localPort := 5004,
    codec := { payloadType := 96, mimeType := "video/VP8", clockRate := 90000,
               channels := none,
               parameters := [("x-google-start-bitrate", "1000")] } }

/-- A sample audio endpoint (opus with unspecified channel count and
no format parameters). -/
def sampleAudioEndpoint : EndpointInput :=
  { localPort := 5006,
    codec := { payloadType := 97, mimeType := "audio/opus", clockRate := 48000,
               channels := none, parameters := [] } }

/-! ### Trace predicates and invariants -/

/-- One step of the mutual-exclusion automaton over the event trace:
`some armed` means no violation so far and `armed` records whether a
subprocess has been spawned with no completed `stopHlsConverter`
since; `none` records a violation (a second spawn without an
intervening completed stop). -/
def sepStep (a : Option Bool) (e : Ev) : Option Bool :=
  match a, e with
  | none, _ => none
  | some armed, Ev.spawn _ => if armed then none else some true
  | some _, Ev.stopDone => some false
  | some armed, _ => some armed

/-- Run the mutual-exclusion automaton over a trace. -/
def sepArm (tr : Trace) : Option Bool := tr.foldl sepStep (some false)

/-- A trace satisfies mutual exclusion of the transcoder subprocess
when between any two spawns a `stopHlsConverter` invocation ran to
completion. -/
def mutexOk (tr : Trace) : Bool := (sepArm tr).isSome

/-- The start promise carried by a task belonging to the in-flight
start operation (the body of `startConverterInternal` and
`startRtpToHlsConverter`), if the task is one. -/
def startTaskP : Task → Option Nat
  | Task.stopHls _ (SCont.startForce p) => some p
  | Task.stopHls _ (SCont.startEntry p) => some p
  | Task.stopHls _ (SCont.startCatch p) => some p
  | Task.startSleep3000 p => some p
  | Task.startSleep1000 p => some p
  | Task.startCreateVT p => some p
  | Task.startCreateAT p => some p
  | Task.startConsumeV p => some p
  | Task.startConsumeA p => some p
  | _ => none

/-- The promises of the in-flight start operations in a task pool. -/
def startTasks (ts : List Task) : List Nat := ts.filterMap startTaskP

/-- Whether a task is a start operation past the completion of the
`stopHlsConverter` call at the head of `startRtpToHlsConverter`
(after which the next emitted spawn comes before any further
`stopDone`). -/
def isPostStop : Task → Bool
  | Task.startSleep1000 _ => true
  | Task.startCreateVT _ => true
  | Task.startCreateAT _ => true
  | Task.startConsumeV _ => true
  | Task.startConsumeA _ => true
  | _ => false

/-- The inductive invariant of the system: the running flag is false
at every suspension point (the only assignment of `true` is undone by
`forceStopConverter` within the same synchronous segment); every
in-flight start operation is registered in `converterStartPromise`
and unsettled; at most one start operation is in flight; settled
promise ids and the registered promise id are below the fresh-id
counter; and the trace satisfies the mutual-exclusion automaton,
with the armed flag only raised while no start operation is past its
entry stop. -/
def Inv (sys : Sys) : Prop :=
  sys.st.isConverterRunning = false
  ∧ (∀ p ∈ startTasks sys.tasks,
      sys.st.converterStartPromise = some p ∧ sys.st.settled.lookup p = none)
  ∧ (startTasks sys.tasks).length ≤ 1
  ∧ (∀ pb ∈ sys.st.settled, pb.1 < sys.st.nextId)
  ∧ (∀ q, sys.st.converterStartPromise = some q → q < sys.st.nextId)
  ∧ (∃ a, sepArm sys.trace = some a
      ∧ (a = true → ∀ t ∈ sys.tasks, isPostStop t = false))

/-- The accumulator invariant of the promise-settlement fold: the
running flag is false, every task in the pool is neither a start
operation nor past its entry stop, the settled promise ids and the
registered promise id are below the fresh-id counter, and the trace
satisfies the mutual-exclusion automaton. -/
def WakeOk (sys : Sys) : Prop :=
  sys.st.isConverterRunning = false
  ∧ (∀ t ∈ sys.tasks, startTaskP t = none ∧ isPostStop t = false)
  ∧ (∀ pb ∈ sys.st.settled, pb.1 < sys.st.nextId)
  ∧ (∀ q, sys.st.converterStartPromise = some q → q < sys.st.nextId)
  ∧ (sepArm sys.trace).isSome = true

/-- The number of `tryStartConverter` invocations recorded in a
trace. -/
def tryCount (tr : Trace) : Nat :=
  tr.countP (fun e => match e with | Ev.tryStart => true | _ => false)

/-- Run one `stopHlsConverter` invocation from a pending close
position to completion, in isolation (fuel-bounded; four closes at
most are pending). -/
def stopHlsFuel : Nat → CState → Option SPc → CState × Trace
  | _, c, none => (c, [])
  | 0, c, some _ => (c, [])
  | n + 1, c, some pc =>
    let r := stopHlsAdvance c pc
    let r2 := stopHlsFuel n r.1 r.2.2
    (r2.1, r.2.1 ++ r2.2)

/-- Execution of a whole `stopHlsConverter` invocation in isolation,
from entry to completion. -/
def stopHlsRunAll (c : CState) : CState × Trace :=
  let r := stopHlsCore c
  let r2 := stopHlsFuel 4 r.1 r.2.2
  (r2.1, r.2.1 ++ r2.2)

/-! ### Concrete executions used by the theorems -/

/-- A successful start: register a video producer (id 1) and an audio
producer (id 2), fire the debounce timer, and complete every awaited
external operation successfully; ffmpeg is spawned with pid 3. -/
def startSteps : List EnvStep :=
  [EnvStep.setP Kind.video 1, EnvStep.setP Kind.audio 2, EnvStep.timer 1,
   EnvStep.resume 0 true, EnvStep.resume 0 true, EnvStep.resume 0 true,
   EnvStep.resume 0 true, EnvStep.resume 0 true, EnvStep.resume 0 true]

/-- After a successful start, re-register the same video producer and
let the new debounce timer fire, driving a restart to completion: the
old subprocess (pid 3) is killed, never observed to exit, and a new
one (pid 6) is spawned. -/
def restartSteps : List EnvStep :=
  startSteps ++
  [EnvStep.setP Kind.video 1, EnvStep.timer 4,
   EnvStep.resume 0 true, EnvStep.resume 0 true, EnvStep.resume 0 true,
   EnvStep.resume 0 true,
   EnvStep.resume 1 true, EnvStep.resume 1 true, EnvStep.resume 1 true,
   EnvStep.resume 1 true, EnvStep.resume 1 true, EnvStep.resume 1 true]

/-- The point at which a start attempt fails: the creation of the
video transport, of the audio transport, of the video consumer, or of
the audio consumer. -/
inductive FailPoint
  | failVT
  | failAT
  | failCV
  | failCA
deriving DecidableEq, Repr

/-- A start attempt that fails at the given point: both producers are
registered, the timer fires, the start runs up to the failing external
operation, which rejects; the remaining resume events drain the
cleanup closes (extra events on an empty pool are disabled and
skipped). -/
def failSteps (fp : FailPoint) : List EnvStep :=
  [EnvStep.setP Kind.video 1, EnvStep.setP Kind.audio 2, EnvStep.timer 1,
   EnvStep.resume 0 true, EnvStep.resume 0 true]
  ++ (match fp with
      | FailPoint.failVT => [EnvStep.resume 0 false]
      | FailPoint.failAT => [EnvStep.resume 0 true, EnvStep.resume 0 false]
      | FailPoint.failCV =>
        [EnvStep.resume 0 true, EnvStep.resume 0 true, EnvStep.resume 0 false]
      | FailPoint.failCA =>
        [EnvStep.resume 0 true, EnvStep.resume 0 true, EnvStep.resume 0 true,
         EnvStep.resume 0 false])
  ++ List.replicate 6 (EnvStep.resume 0 true)

/-- An external `stopConverter` call issued while the start created by
the fired timer is still in flight, followed by resume events draining
the start and the stop to completion. -/
def stopWhileStartingSteps : List EnvStep :=
  [EnvStep.setP Kind.video 1, EnvStep.setP Kind.audio 2, EnvStep.timer 1,
   EnvStep.stopCall,
   EnvStep.resume 0 true, EnvStep.resume 0 true, EnvStep.resume 0 true,
   EnvStep.resume 0 true, EnvStep.resume 0 true, EnvStep.resume 0 true,
   EnvStep.resume 0 true, EnvStep.resume 0 true, EnvStep.resume 0 true,
   EnvStep.resume 0 true]

/-! ## Theorems -/

set_option maxRecDepth 20000

/-! ### String helper lemmas -/

theorem intercalate_go_length (s : String) (as : List String) (acc : String) :
    acc.length ≤ (String.intercalate.go acc s as).length := by
  induction as generalizing acc with
  | nil => exact Nat.le_refl _
  | cons a as ih =>
    have h1 : acc.length ≤ (acc ++ s ++ a).length := by
      simp only [String.length_append]
      omega
    exact Nat.le_trans h1 (ih (acc ++ s ++ a))

theorem formatParams_ne_empty_iff (ps : List (String × String)) :
    (formatParams ps ≠ "") ↔ ps ≠ [] := by
  cases ps with
  | nil => simp [formatParams]
  | cons x xs =>
    simp only [ne_eq, List.cons_ne_nil, not_false_eq_true, iff_true]
    intro h
    have hlen : (x.1 ++ "=" ++ x.2).length ≤ (formatParams (x :: xs)).length := by
      show (x.1 ++ "=" ++ x.2).length ≤
        (String.intercalate.go (x.1 ++ "=" ++ x.2) ";"
          (xs.map (fun kv => kv.1 ++ "=" ++ kv.2))).length
      exact intercalate_go_length _ _ _
    rw [h] at hlen
    have h1 : (x.1 ++ "=" ++ x.2).length = x.1.length + 1 + x.2.length := by
      simp only [String.length_append]
      have : ("=" : String).length = 1 := rfl
      omega
    have h0 : ("" : String).length = 0 := rfl
    omega

theorem data_getElem_append (p s : String) (i : Nat) (c : Char)
    (h : p.data[i]? = some c) : (p ++ s).data[i]? = some c := by
  have hlt : i < p.data.length := by
    rw [List.getElem?_eq_some] at h
    exact h.1
  rw [String.data_append, List.getElem?_append_left hlt]
  exact h

theorem string_ne_of_data (x y : String) (i : Nat) (c d : Char)
    (hx : x.data[i]? = some c) (hy : y.data[i]? = some d) (hcd : c ≠ d) :
    x ≠ y := by
  intro h
  subst h
  rw [hx] at hy
  exact hcd (Option.some.inj hy)

theorem fmtpLine_data (x y z : String) :
    ("a=fmtp:" ++ x ++ y ++ z).data[2]? = some 'f' :=
  data_getElem_append _ _ _ _ (data_getElem_append _ _ _ _
    (data_getElem_append _ _ _ _ (by decide)))

theorem rtpmapLine_data (x1 x2 x3 x4 x5 : String) :
    ("a=rtpmap:" ++ x1 ++ x2 ++ x3 ++ x4 ++ x5).data[2]? = some 'r' :=
  data_getElem_append _ _ _ _ (data_getElem_append _ _ _ _
    (data_getElem_append _ _ _ _ (data_getElem_append _ _ _ _
      (data_getElem_append _ _ _ _ (by decide)))))

theorem audioRtpmapLine_data (x1 x2 x3 x4 x5 x6 x7 : String) :
    ("a=rtpmap:" ++ x1 ++ x2 ++ x3 ++ x4 ++ x5 ++ x6 ++ x7).data[2]? = some 'r' :=
  data_getElem_append _ _ _ _ (data_getElem_append _ _ _ _
    (data_getElem_append _ _ _ _ (data_getElem_append _ _ _ _
      (data_getElem_append _ _ _ _ (data_getElem_append _ _ _ _
        (data_getElem_append _ _ _ _ (by decide)))))))

theorem mLine_data (pre : String) (hp : pre.data[0]? = some 'm') (x y z : String) :
    (pre ++ x ++ y ++ z).data[0]? = some 'm' :=
  data_getElem_append _ _ _ _ (data_getElem_append _ _ _ _
    (data_getElem_append _ _ _ _ hp))

theorem fmtpLine_data0 (x y z : String) :
    ("a=fmtp:" ++ x ++ y ++ z).data[0]? = some 'a' :=
  data_getElem_append _ _ _ _ (data_getElem_append _ _ _ _
    (data_getElem_append _ _ _ _ (by decide)))

theorem fmtp_ne_mvideo (x y z u v w : String) :
    ("a=fmtp:" ++ x ++ y ++ z) ≠ ("m=video " ++ u ++ v ++ w) :=
  string_ne_of_data _ _ 0 'a' 'm' (fmtpLine_data0 x y z)
    (mLine_data "m=video " (by decide) u v w) (by decide)

theorem fmtp_ne_maudio (x y z u v w : String) :
    ("a=fmtp:" ++ x ++ y ++ z) ≠ ("m=audio " ++ u ++ v ++ w) :=
  string_ne_of_data _ _ 0 'a' 'm' (fmtpLine_data0 x y z)
    (mLine_data "m=audio " (by decide) u v w) (by decide)

theorem fmtp_ne_rtpmap (x y z a1 a2 a3 a4 a5 : String) :
    ("a=fmtp:" ++ x ++ y ++ z) ≠ ("a=rtpmap:" ++ a1 ++ a2 ++ a3 ++ a4 ++ a5) :=
  string_ne_of_data _ _ 2 'f' 'r' (fmtpLine_data x y z)
    (rtpmapLine_data a1 a2 a3 a4 a5) (by decide)

theorem fmtp_ne_audioRtpmap (x y z a1 a2 a3 a4 a5 a6 a7 : String) :
    ("a=fmtp:" ++ x ++ y ++ z)
      ≠ ("a=rtpmap:" ++ a1 ++ a2 ++ a3 ++ a4 ++ a5 ++ a6 ++ a7) :=
  string_ne_of_data _ _ 2 'f' 'r' (fmtpLine_data x y z)
    (audioRtpmapLine_data a1 a2 a3 a4 a5 a6 a7) (by decide)

theorem fmtp_ne_sendonly (x y z : String) :
    ("a=fmtp:" ++ x ++ y ++ z) ≠ "a=sendonly" :=
  string_ne_of_data _ _ 2 'f' 's' (fmtpLine_data x y z) (by decide) (by decide)

/-! ### Claims C8 and C9: the session description synthesizer -/

/-- Claim C8: session description synthesis is a pure, deterministic
and total function of its two endpoint inputs: two invocations with
identical inputs produce byte-identical output text (the embedding
`createSdpString` is a function of the two endpoints and of nothing
else), and for every syntactically valid endpoint pair it produces a
non-empty output (it never fails). -/
theorem C8_sdp_deterministic_total (v1 a1 v2 a2 : EndpointInput)
    (hv : v1 = v2) (ha : a1 = a2) :
    createSdpString v1 a1 = createSdpString v2 a2
    ∧ createSdpString v1 a1 ≠ "" := by
  subst hv
  subst ha
  refine ⟨rfl, ?_⟩
  intro h
  have hlen := congrArg String.length h
  rw [createSdpString, String.length_append] at hlen
  have h2 : ("\r\n" : String).length = 2 := rfl
  have h0 : ("" : String).length = 0 := rfl
  omega

/-- Witness for C8 at the sample endpoints. -/
theorem C8_sdp_deterministic_total_witness :
    createSdpString sampleVideoEndpoint sampleAudioEndpoint
      = createSdpString sampleVideoEndpoint sampleAudioEndpoint
    ∧ createSdpString sampleVideoEndpoint sampleAudioEndpoint ≠ "" :=
  C8_sdp_deterministic_total sampleVideoEndpoint sampleAudioEndpoint
    sampleVideoEndpoint sampleAudioEndpoint rfl rfl

/-- Claim C9: the synthesized session description contains a
codec-parameter (fmtp) line for a track if and only if that track
codec declares at least one format parameter, and the audio rtpmap
line uses channel count 2 whenever the audio codec channel count is
unspecified. -/
theorem C9_fmtp_iff_and_channels_default (video audio : EndpointInput) :
    ((∃ r, ("a=fmtp:" ++ toString video.codec.payloadType ++ " " ++ r)
        ∈ sdpVideoSection video) ↔ video.codec.parameters ≠ [])
    ∧ ((∃ r, ("a=fmtp:" ++ toString audio.codec.payloadType ++ " " ++ r)
        ∈ sdpAudioSection audio) ↔ audio.codec.parameters ≠ [])
    ∧ (audio.codec.channels = none →
        sdpAudioRtpmapLine audio =
          "a=rtpmap:" ++ toString audio.codec.payloadType ++ " "
            ++ mimeSubtype audio.codec.mimeType ++ "/"
            ++ toString audio.codec.clockRate ++ "/" ++ "2") := by
  refine ⟨?_, ?_, ?_⟩
  · constructor
    · rintro ⟨r, hr⟩
      rw [← formatParams_ne_empty_iff]
      by_cases hc : formatParams video.codec.parameters = ""
      · exfalso
        simp only [sdpVideoSection, hc, ne_eq, not_true_eq_false, if_false,
          List.append_nil, List.nil_append, List.cons_append, List.mem_cons,
          List.mem_singleton, List.not_mem_nil, or_false] at hr
        rcases hr with hr | hr | hr
        · exact fmtp_ne_mvideo _ _ _ _ _ _ hr
        · exact fmtp_ne_rtpmap _ _ _ _ _ _ _ _ hr
        · exact fmtp_ne_sendonly _ _ _ hr
      · exact hc
    · intro h
      have h2 : formatParams video.codec.parameters ≠ "" :=
        (formatParams_ne_empty_iff _).mpr h
      refine ⟨formatParams video.codec.parameters, ?_⟩
      simp [sdpVideoSection, h2]
  · constructor
    · rintro ⟨r, hr⟩
      rw [← formatParams_ne_empty_iff]
      by_cases hc : formatParams audio.codec.parameters = ""
      · exfalso
        simp only [sdpAudioSection, sdpAudioRtpmapLine, hc, ne_eq,
          not_true_eq_false, if_false, List.append_nil, List.nil_append,
          List.cons_append, List.mem_cons, List.mem_singleton,
          List.not_mem_nil, or_false] at hr
        rcases hr with hr | hr | hr
        · exact fmtp_ne_maudio _ _ _ _ _ _ hr
        · exact fmtp_ne_audioRtpmap _ _ _ _ _ _ _ _ _ _ hr
        · exact fmtp_ne_sendonly _ _ _ hr
      · exact hc
    · intro h
      have h2 : formatParams audio.codec.parameters ≠ "" :=
        (formatParams_ne_empty_iff _).mpr h
      refine ⟨formatParams audio.codec.parameters, ?_⟩
      simp [sdpAudioSection, h2]
  · intro h
    simp only [sdpAudioRtpmapLine, h]
    rfl

/-- Witness for C9 at the sample endpoints: the video codec declares a
format parameter and its section carries an fmtp line; the audio codec
declares none and its section carries no fmtp line; the audio channel
count is unspecified and the rtpmap line ends in 2. -/
theorem C9_fmtp_iff_and_channels_default_witness :
    ((∃ r, ("a=fmtp:" ++ toString sampleVideoEndpoint.codec.payloadType ++ " " ++ r)
        ∈ sdpVideoSection sampleVideoEndpoint)
      ↔ sampleVideoEndpoint.codec.parameters ≠ [])
    ∧ ((∃ r, ("a=fmtp:" ++ toString sampleAudioEndpoint.codec.payloadType ++ " " ++ r)
        ∈ sdpAudioSection sampleAudioEndpoint)
      ↔ sampleAudioEndpoint.codec.parameters ≠ [])
    ∧ (sampleAudioEndpoint.codec.channels = none →
        sdpAudioRtpmapLine sampleAudioEndpoint =
          "a=rtpmap:" ++ toString sampleAudioEndpoint.codec.payloadType ++ " "
            ++ mimeSubtype sampleAudioEndpoint.codec.mimeType ++ "/"
            ++ toString sampleAudioEndpoint.codec.clockRate ++ "/" ++ "2") :=
  C9_fmtp_iff_and_channels_default sampleVideoEndpoint sampleAudioEndpoint

/-! ### Basic lemmas about the transition system -/

theorem tryCount_append (t1 t2 : Trace) :
    tryCount (t1 ++ t2) = tryCount t1 + tryCount t2 :=
  List.countP_append _ _ _

/-- Field preservation and trace facts for the synchronous prefix of
`stopHlsConverter`: it touches only the process handle and the
transport/consumer handles, emits no `tryStart` event, and drives the
mutual-exclusion automaton to `some false` exactly when it completes
without pending closes. -/
theorem stopHlsCore_spec (c : CState) :
    (stopHlsCore c).1.isConverterRunning = c.isConverterRunning
    ∧ (stopHlsCore c).1.converterStartPromise = c.converterStartPromise
    ∧ (stopHlsCore c).1.settled = c.settled
    ∧ (stopHlsCore c).1.nextId = c.nextId
    ∧ (stopHlsCore c).1.videoProducer = c.videoProducer
    ∧ (stopHlsCore c).1.audioProducer = c.audioProducer
    ∧ (stopHlsCore c).1.liveTimers = c.liveTimers
    ∧ (stopHlsCore c).1.restartTimeout = c.restartTimeout
    ∧ (stopHlsCore c).1.handlers = c.handlers
    ∧ tryCount (stopHlsCore c).2.1 = 0
    ∧ (∀ a, (stopHlsCore c).2.1.foldl sepStep (some a)
        = some (if (stopHlsCore c).2.2.isNone then false else a)) := by
  cases hf : c.ffmpegProcess <;> cases h1 : c.hlsVideoTransport <;>
    cases h2 : c.hlsAudioTransport <;> cases h3 : c.hlsVideoConsumer <;>
    cases h4 : c.hlsAudioConsumer <;>
    simp [stopHlsCore, hf, h1, h2, h3, h4, tryCount, sepStep, List.foldl,
      List.countP, List.countP.go]

/-! ### Claim C3: audio producer closing while running -/

/-- Counterexample to claim C3: after a successful start (subprocess
pid 3 running, video producer 1 and audio producer 2 tracked), the
audio producer transport closes; the controller clears the audio slot
but does not stop the subprocess: the process handle still holds
pid 3, no kill is emitted and the trace is unchanged. -/
theorem C3_counterexample :
    (run initSys (startSteps ++ [EnvStep.closeProd 2])).st.audioProducer = none
    ∧ (run initSys (startSteps ++ [EnvStep.closeProd 2])).st.videoProducer = some 1
    ∧ (run initSys (startSteps ++ [EnvStep.closeProd 2])).st.ffmpegProcess = some 3
    ∧ (run initSys (startSteps ++ [EnvStep.closeProd 2])).trace
        = (run initSys startSteps).trace
    ∧ (run initSys startSteps).st.ffmpegProcess = some 3 := by
  decide

/-- Claim C3 as amended: when the audio producer closes while the
video producer is still tracked, the close handler clears the audio
slot and leaves everything else alone: the subprocess keeps running,
no Supervisor call is made and no start is scheduled; the converter is
stopped by the handler only when both slots become empty. -/
theorem C3_amended_close_clears_slot_without_stop (sys : Sys) (pid q : Nat)
    (hfind : sys.st.handlers.filter (fun h => h.2 == pid) = [(Kind.audio, pid)])
    (hv : sys.st.videoProducer = some q)
    (ha : sys.st.audioProducer = some pid) :
    (closeProducerCall sys pid).st.audioProducer = none
    ∧ (closeProducerCall sys pid).st.videoProducer = some q
    ∧ (closeProducerCall sys pid).st.ffmpegProcess = sys.st.ffmpegProcess
    ∧ (closeProducerCall sys pid).trace = sys.trace
    ∧ (closeProducerCall sys pid).tasks = sys.tasks
    ∧ (closeProducerCall sys pid).st.restartTimeout = sys.st.restartTimeout
    ∧ (closeProducerCall sys pid).st.liveTimers = sys.st.liveTimers := by
  simp only [closeProducerCall, hfind, List.foldl_cons, List.foldl_nil]
  simp [runHandler, ha, hv]

/-- Witness for the amended C3 at the concrete post-start state. -/
theorem C3_amended_witness :
    ((closeProducerCall (run initSys startSteps) 2).st.audioProducer = none
    ∧ (closeProducerCall (run initSys startSteps) 2).st.videoProducer = some 1
    ∧ (closeProducerCall (run initSys startSteps) 2).st.ffmpegProcess
        = (run initSys startSteps).st.ffmpegProcess
    ∧ (closeProducerCall (run initSys startSteps) 2).trace
        = (run initSys startSteps).trace
    ∧ (closeProducerCall (run initSys startSteps) 2).tasks
        = (run initSys startSteps).tasks
    ∧ (closeProducerCall (run initSys startSteps) 2).st.restartTimeout
        = (run initSys startSteps).st.restartTimeout
    ∧ (closeProducerCall (run initSys startSteps) 2).st.liveTimers
        = (run initSys startSteps).st.liveTimers) :=
  C3_amended_close_clears_slot_without_stop (run initSys startSteps) 2 1
    (by decide) (by decide) (by decide)

/-! ### Claim C4: stop and subprocess termination -/

/-- Counterexample to claim C4: in the restart execution the old
subprocess (pid 3) receives the kill signal, the stop runs to
completion (`stopDone`), and a new subprocess (pid 6) is spawned,
while pid 3 is never observed to exit (`exited` stays empty): the stop
does not wait for exit, and the new subprocess is created before the
termination of the previous one was awaited. -/
theorem C4_counterexample :
    (run initSys restartSteps).trace =
      [Ev.tryStart, Ev.supStop, Ev.stopDone, Ev.supStop, Ev.stopDone,
       Ev.spawn 3, Ev.tryStart, Ev.supStop, Ev.kill 3, Ev.stopDone,
       Ev.supStop, Ev.stopDone, Ev.spawn 6]
    ∧ (run initSys restartSteps).st.exited = []
    ∧ (run initSys restartSteps).st.spawned = [3, 6] := by
  decide

/-! ### Claim C5: stop is idempotent -/

/-- Claim C5: `stopConverter` is idempotent. On an idle controller
(running flag false, no start promise in flight) an external stop
call is a complete no-op: no Supervisor call, no state change. And in
the concrete execution where a stop is called while a start is in
flight and both run to completion, a second stop call immediately
afterwards changes nothing (in particular it emits no additional
Supervisor stop call). -/
theorem C5_stop_idempotent (sys : Sys)
    (hflag : sys.st.isConverterRunning = false)
    (hp : sys.st.converterStartPromise = none) :
    stepOpt sys EnvStep.stopCall = some sys
    ∧ run initSys (stopWhileStartingSteps ++ [EnvStep.stopCall])
        = run initSys stopWhileStartingSteps := by
  constructor
  · simp [stepOpt, enterStopConverter, hflag, hp, kContRun]
  · decide

/-- Witness for C5 at the initial (idle) system. -/
theorem C5_stop_idempotent_witness :
    stepOpt initSys EnvStep.stopCall = some initSys
    ∧ run initSys (stopWhileStartingSteps ++ [EnvStep.stopCall])
        = run initSys stopWhileStartingSteps :=
  C5_stop_idempotent initSys rfl rfl

/-! ### Claim C6: debounce coalescing -/

/-- The creation segment of a start operation emits no `tryStart`
event and does not touch the timer list. -/
theorem startCreation_trace_timers (sys : Sys) :
    tryCount (startCreation sys).trace = tryCount sys.trace
    ∧ (startCreation sys).st.liveTimers = sys.st.liveTimers := by
  constructor
  · show tryCount (sys.trace ++ (stopHlsCore _).2.1) = tryCount sys.trace
    rw [tryCount_append, (stopHlsCore_spec _).2.2.2.2.2.2.2.2.2.1]
    omega
  · exact (stopHlsCore_spec _).2.2.2.2.2.2.1

theorem tryStart_trace_timers (sys : Sys) :
    tryCount (tryStartConverterCall sys).trace = tryCount sys.trace + 1
    ∧ (tryStartConverterCall sys).st.liveTimers = sys.st.liveTimers := by
  have h1 : tryCount [Ev.tryStart] = 1 := by decide
  have hcases : tryStartConverterCall sys
        = { sys with trace := sys.trace ++ [Ev.tryStart] }
      ∨ tryStartConverterCall sys
        = startCreation { sys with trace := sys.trace ++ [Ev.tryStart] } := by
    unfold tryStartConverterCall
    dsimp only
    split
    · exact Or.inl rfl
    · split
      · exact Or.inl rfl
      · exact Or.inr rfl
  rcases hcases with h | h <;> rw [h]
  · exact ⟨by rw [tryCount_append, h1], rfl⟩
  · constructor
    · rw [(startCreation_trace_timers _).1, tryCount_append, h1]
    · rw [(startCreation_trace_timers _).2]

/-- Claim C6: from a state with no pending timer and empty producer
slots, calling `setProducer(video, A)` then `setProducer(audio, B)`
within the debounce window leaves exactly one live timer (the one
scheduled by the second call; the first timer is cancelled and can no
longer fire), and firing it produces exactly one `tryStartConverter`
invocation, after which no timer remains. -/
theorem C6_debounce_coalesce (sys : Sys) (A B : Nat)
    (hT : sys.st.restartTimeout = none) (hL : sys.st.liveTimers = [])
    (hV : sys.st.videoProducer = none) (hA : sys.st.audioProducer = none) :
    (setProducerCall (setProducerCall sys Kind.video A) Kind.audio B).st.liveTimers
        = [sys.st.nextId + 1]
    ∧ stepOpt (setProducerCall (setProducerCall sys Kind.video A) Kind.audio B)
        (EnvStep.timer sys.st.nextId) = none
    ∧ (∃ sys3,
        stepOpt (setProducerCall (setProducerCall sys Kind.video A) Kind.audio B)
          (EnvStep.timer (sys.st.nextId + 1)) = some sys3
        ∧ tryCount sys3.trace = tryCount sys.trace + 1
        ∧ sys3.st.liveTimers = []) := by
  have h1 : setProducerCall sys Kind.video A
      = { sys with st := setProducerTail sys.st Kind.video A } := by
    simp [setProducerCall, cancelRestartTimer, hT, hV]
  have h2 : setProducerTail sys.st Kind.video A
      = { sys.st with videoProducer := some A,
                      handlers := sys.st.handlers ++ [(Kind.video, A)],
                      restartTimeout := some sys.st.nextId,
                      liveTimers := sys.st.liveTimers ++ [sys.st.nextId],
                      nextId := sys.st.nextId + 1 } := by
    simp [setProducerTail]
  rw [h1, h2]
  have h3 : setProducerCall
      { sys with
        st := { sys.st with
                videoProducer := some A,
                handlers := sys.st.handlers ++ [(Kind.video, A)],
                restartTimeout := some sys.st.nextId,
                liveTimers := sys.st.liveTimers ++ [sys.st.nextId],
                nextId := sys.st.nextId + 1 } } Kind.audio B
      = { sys with
          st := { sys.st with
                  videoProducer := some A,
                  audioProducer := some B,
                  handlers := (sys.st.handlers ++ [(Kind.video, A)])
                    ++ [(Kind.audio, B)],
                  restartTimeout := some (sys.st.nextId + 1),
                  liveTimers := [sys.st.nextId + 1],
                  nextId := sys.st.nextId + 2 } } := by
    simp [setProducerCall, cancelRestartTimer, hA, hL, setProducerTail]
  rw [h3]
  refine ⟨rfl, ?_, ?_⟩
  · simp [stepOpt]
  · have h4 : stepOpt
        { sys with
          st := { sys.st with
                  videoProducer := some A,
                  audioProducer := some B,
                  handlers := (sys.st.handlers ++ [(Kind.video, A)])
                    ++ [(Kind.audio, B)],
                  restartTimeout := some (sys.st.nextId + 1),
                  liveTimers := [sys.st.nextId + 1],
                  nextId := sys.st.nextId + 2 } }
        (EnvStep.timer (sys.st.nextId + 1))
        = some (tryStartConverterCall
          { sys with
            st := { sys.st with
                    videoProducer := some A,
                    audioProducer := some B,
                    handlers := (sys.st.handlers ++ [(Kind.video, A)])
                      ++ [(Kind.audio, B)],
                    restartTimeout := some (sys.st.nextId + 1),
                    liveTimers := [],
                    nextId := sys.st.nextId + 2 } }) := by
      simp [stepOpt]
    refine ⟨_, h4, ?_, ?_⟩
    · exact (tryStart_trace_timers _).1
    · exact (tryStart_trace_timers _).2

/-! ### Claim C7: start failure containment -/

/-- Claim C7: whichever provisioning step of a start attempt fails
(video transport, audio transport, video consumer or audio consumer
creation; the ffmpeg spawn itself cannot fail synchronously in the
source, `runFfmpeg` always returns a handle), the rejection is caught
at the controller boundary: the run ends with no pending task (nothing
escapes to the hosting process; the rejected promise has been consumed
by the catch of `tryStartConverter`), with both producer ids still
tracked, and with `getState().isConverterRunning = false`. -/
theorem C7_start_failure_contained (fp : FailPoint) :
    (run initSys (failSteps fp)).st.videoProducer = some 1
    ∧ (run initSys (failSteps fp)).st.audioProducer = some 2
    ∧ (getState (run initSys (failSteps fp)).st).isConverterRunning = false
    ∧ (run initSys (failSteps fp)).tasks = []
    ∧ (run initSys (failSteps fp)).st.settled = [(2, false)] := by
  cases fp <;> exact ⟨by decide, by decide, by decide, by decide, by decide⟩

/-! ### Claim C10: stop clears every resource handle -/

/-- Claim C10: a `stopHlsConverter` invocation, run from entry to
completion, leaves all five resource handles null (the ffmpeg process,
the two plain transports and the two consumers), from every starting
state; and in the concrete execution where the start attempt fails at
its last step (audio consumer creation), the cleanup-before-rethrow
leaves no transport or consumer registered and no pending task. -/
theorem C10_cleanup_clears_handles (c : CState) :
    ((stopHlsRunAll c).1.ffmpegProcess = none
    ∧ (stopHlsRunAll c).1.hlsVideoTransport = false
    ∧ (stopHlsRunAll c).1.hlsAudioTransport = false
    ∧ (stopHlsRunAll c).1.hlsVideoConsumer = false
    ∧ (stopHlsRunAll c).1.hlsAudioConsumer = false)
    ∧ ((run initSys (failSteps FailPoint.failCA)).st.ffmpegProcess = none
    ∧ (run initSys (failSteps FailPoint.failCA)).st.hlsVideoTransport = false
    ∧ (run initSys (failSteps FailPoint.failCA)).st.hlsAudioTransport = false
    ∧ (run initSys (failSteps FailPoint.failCA)).st.hlsVideoConsumer = false
    ∧ (run initSys (failSteps FailPoint.failCA)).st.hlsAudioConsumer = false
    ∧ (run initSys (failSteps FailPoint.failCA)).tasks = []) := by
  constructor
  · cases hf : c.ffmpegProcess <;> cases h1 : c.hlsVideoTransport <;>
      cases h2 : c.hlsAudioTransport <;> cases h3 : c.hlsVideoConsumer <;>
      cases h4 : c.hlsAudioConsumer <;>
      simp [stopHlsRunAll, stopHlsCore, stopHlsFuel, stopHlsAdvance,
        hf, h1, h2, h3, h4]
  · exact ⟨by decide, by decide, by decide, by decide, by decide, by decide⟩

/-! ### Invariant infrastructure for the mutual-exclusion proof -/

theorem tasks_decomp {ts : List Task} {i : Nat} {t : Task} (h : ts[i]? = some t) :
    ts = ts.take i ++ t :: ts.drop (i + 1) := by
  have hlt : i < ts.length := by rw [List.getElem?_eq_some] at h; exact h.1
  have hget : ts[i] = t := by
    have he := List.getElem?_eq_getElem hlt
    rw [he] at h
    exact Option.some.inj h
  conv_lhs => rw [← List.take_append_drop i ts]
  rw [List.drop_eq_getElem_cons hlt, hget]

theorem startTasks_append (t1 t2 : List Task) :
    startTasks (t1 ++ t2) = startTasks t1 ++ startTasks t2 :=
  List.filterMap_append t1 t2 startTaskP

theorem startTasks_nil_of {ts : List Task} (h : ∀ t ∈ ts, startTaskP t = none) :
    startTasks ts = [] :=
  List.filterMap_eq_nil_iff.mpr h

theorem none_of_startTasks_nil {ts : List Task} (h : startTasks ts = [])
    {t : Task} (ht : t ∈ ts) : startTaskP t = none := by
  have := List.filterMap_eq_nil_iff.mp h
  exact this t ht

theorem postStop_isStart (t : Task) (h : isPostStop t = true) :
    (startTaskP t).isSome = true := by
  cases t <;> simp [isPostStop, startTaskP] at h ⊢

theorem lookup_none_of_bound {l : List (Nat × Bool)} {n : Nat}
    (h : ∀ pb ∈ l, pb.1 < n) : l.lookup n = none := by
  induction l with
  | nil => rfl
  | cons x xs ih =>
    have hx := h x (List.mem_cons_self x xs)
    have hne : (n == x.1) = false := by
      simp only [beq_eq_false_iff_ne, ne_eq]
      omega
    rw [List.lookup, hne]
    exact ih (fun pb hpb => h pb (List.mem_cons_of_mem x hpb))

theorem sepArm_append (tr evs : Trace) :
    sepArm (tr ++ evs) = evs.foldl sepStep (sepArm tr) := by
  unfold sepArm
  exact List.foldl_append _ _ _ _

/-- Building a new system from an invariant one by appending only
tasks that belong to no start operation, preserving the controller
flags and bookkeeping, and extending the trace without spawns
preserves the invariant. -/
theorem Inv_of_ext (sys sys2 : Sys) (h : Inv sys)
    (htasks : ∃ ts2, sys2.tasks = sys.tasks ++ ts2
      ∧ ∀ t ∈ ts2, startTaskP t = none ∧ isPostStop t = false)
    (hflag : sys2.st.isConverterRunning = false)
    (hfield : sys2.st.converterStartPromise = sys.st.converterStartPromise
      ∨ (sys2.st.converterStartPromise = none ∧ startTasks sys.tasks = []))
    (hsettled : sys2.st.settled = sys.st.settled)
    (hnext : sys.st.nextId ≤ sys2.st.nextId)
    (hsep : ∀ a, sepArm sys.trace = some a →
        sepArm sys2.trace = some a ∨ sepArm sys2.trace = some false) :
    Inv sys2 := by
  obtain ⟨h1, h2, h3, h4, h5, a, ha, hpost⟩ := h
  obtain ⟨ts2, hts, hnp⟩ := htasks
  have hst : startTasks sys2.tasks = startTasks sys.tasks := by
    rw [hts, startTasks_append,
      startTasks_nil_of (fun t ht => (hnp t ht).1), List.append_nil]
  refine ⟨hflag, ?_, ?_, ?_, ?_, ?_⟩
  · intro p hp
    rw [hst] at hp
    rcases hfield with hf | ⟨hf, hempty⟩
    · rw [hf, hsettled]
      exact h2 p hp
    · rw [hempty] at hp
      exact absurd hp (List.not_mem_nil p)
  · rw [hst]
    exact h3
  · intro pb hpb
    rw [hsettled] at hpb
    exact Nat.lt_of_lt_of_le (h4 pb hpb) hnext
  · intro q hq
    rcases hfield with hf | ⟨hf, _⟩
    · rw [hf] at hq
      exact Nat.lt_of_lt_of_le (h5 q hq) hnext
    · rw [hf] at hq
      exact absurd hq (Option.noConfusion)
  · rcases hsep a ha with h6 | h6
    · refine ⟨a, h6, ?_⟩
      intro hat t ht
      rw [hts] at ht
      rcases List.mem_append.mp ht with ht | ht
      · exact hpost hat t ht
      · exact (hnp t ht).2
    · exact ⟨false, h6, by simp⟩

/-- The continuation of a completed `stopConverter` preserves the
controller flags, the promise bookkeeping and the monotone fresh-id
counter. -/
theorem kContRun_spec (c : CState) (k : KCont) :
    (kContRun c k).isConverterRunning = c.isConverterRunning
    ∧ (kContRun c k).converterStartPromise = c.converterStartPromise
    ∧ (kContRun c k).settled = c.settled
    ∧ c.nextId ≤ (kContRun c k).nextId := by
  cases k with
  | nothing => exact ⟨rfl, rfl, rfl, Nat.le_refl _⟩
  | setP kind pid =>
    cases kind <;>
      simp [kContRun, setProducerTail]

/-- The `stopHlsConverter`-from-`stopConverter` segment: it only adds
non-start tasks, preserves the controller flags and bookkeeping, and
the trace extension contains no spawn. -/
theorem enterStopHlsStopConv_some (sys : Sys) (k : KCont) (pc : SPc)
    (hpc : (stopHlsCore sys.st).2.2 = some pc) :
    enterStopHlsStopConv sys k
      = { st := (stopHlsCore sys.st).1,
          tasks := sys.tasks ++ [Task.stopHls pc (SCont.stopConv k)],
          trace := sys.trace ++ (stopHlsCore sys.st).2.1 } := by
  simp only [enterStopHlsStopConv, hpc]

theorem enterStopHlsStopConv_none (sys : Sys) (k : KCont)
    (hpc : (stopHlsCore sys.st).2.2 = none) :
    enterStopHlsStopConv sys k
      = { st := kContRun (stopHlsCore sys.st).1 k, tasks := sys.tasks,
          trace := sys.trace ++ (stopHlsCore sys.st).2.1 } := by
  simp only [enterStopHlsStopConv, hpc]

theorem enterStopHlsStopConv_spec (sys : Sys) (k : KCont) :
    (∃ ts2, (enterStopHlsStopConv sys k).tasks = sys.tasks ++ ts2
      ∧ ∀ t ∈ ts2, startTaskP t = none ∧ isPostStop t = false)
    ∧ (enterStopHlsStopConv sys k).st.isConverterRunning
        = sys.st.isConverterRunning
    ∧ (enterStopHlsStopConv sys k).st.converterStartPromise
        = sys.st.converterStartPromise
    ∧ (enterStopHlsStopConv sys k).st.settled = sys.st.settled
    ∧ sys.st.nextId ≤ (enterStopHlsStopConv sys k).st.nextId
    ∧ (∀ a, sepArm sys.trace = some a →
        sepArm (enterStopHlsStopConv sys k).trace = some a
        ∨ sepArm (enterStopHlsStopConv sys k).trace = some false) := by
  have hc := stopHlsCore_spec sys.st
  cases hpc : (stopHlsCore sys.st).2.2 with
  | some pc =>
    rw [enterStopHlsStopConv_some sys k pc hpc]
    refine ⟨⟨[Task.stopHls pc (SCont.stopConv k)], rfl, ?_⟩,
      hc.1, hc.2.1, hc.2.2.1, Nat.le_of_eq hc.2.2.2.1.symm, ?_⟩
    · intro t ht
      rw [List.mem_singleton] at ht
      subst ht
      exact ⟨rfl, rfl⟩
    · intro a ha
      left
      show sepArm (sys.trace ++ (stopHlsCore sys.st).2.1) = some a
      rw [sepArm_append, ha, hc.2.2.2.2.2.2.2.2.2.2 a, hpc]
      rfl
  | none =>
    rw [enterStopHlsStopConv_none sys k hpc]
    have hk := kContRun_spec (stopHlsCore sys.st).1 k
    refine ⟨⟨[], by rw [List.append_nil], by simp⟩, ?_, ?_, ?_, ?_, ?_⟩
    · show (kContRun (stopHlsCore sys.st).1 k).isConverterRunning = _
      rw [hk.1, hc.1]
    · show (kContRun (stopHlsCore sys.st).1 k).converterStartPromise = _
      rw [hk.2.1, hc.2.1]
    · show (kContRun (stopHlsCore sys.st).1 k).settled = _
      rw [hk.2.2.1, hc.2.2.1]
    · show sys.st.nextId ≤ (kContRun (stopHlsCore sys.st).1 k).nextId
      have h4 := hk.2.2.2
      rw [hc.2.2.2.1] at h4
      exact h4
    · intro a ha
      right
      show sepArm (sys.trace ++ (stopHlsCore sys.st).2.1) = some false
      rw [sepArm_append, ha, hc.2.2.2.2.2.2.2.2.2.2 a, hpc]
      rfl

/-- One settlement reaction preserves the fold accumulator
invariant, provided the reacting task is neither a start operation
nor past its entry stop. -/
theorem wakeTask_ok (p : Nat) (ok : Bool) (acc : Sys) (t : Task)
    (h : WakeOk acc) (ht : startTaskP t = none) (ht2 : isPostStop t = false) :
    WakeOk (wakeTask p ok acc t) := by
  obtain ⟨h1, h2, h3, h4, h5⟩ := h
  have happend : WakeOk { acc with tasks := acc.tasks ++ [t] } := by
    refine ⟨h1, ?_, h3, h4, h5⟩
    intro u hu
    rcases List.mem_append.mp hu with hu | hu
    · exact h2 u hu
    · rw [List.mem_singleton] at hu
      subst hu
      exact ⟨ht, ht2⟩
  cases t with
  | tryAwait q =>
    by_cases hq : q = p
    · simp only [wakeTask, hq, if_pos rfl]
      cases ok with
      | true => exact ⟨h1, h2, h3, by simp, h5⟩
      | false => exact ⟨rfl, h2, h3, by simp, h5⟩
    · simpa only [wakeTask, if_neg hq] using happend
  | stopAwaitP q k =>
    by_cases hq : q = p
    · have hs := enterStopHlsStopConv_spec
        { acc with st := { acc.st with converterStartPromise := none } } k
      obtain ⟨⟨ts2, hts, hnp⟩, hf, hp2, hse, hn, hsep⟩ := hs
      have hgoal : WakeOk (enterStopHlsStopConv
          { acc with st := { acc.st with converterStartPromise := none } } k) := by
        refine ⟨?_, ?_, ?_, ?_, ?_⟩
        · rw [hf]
          exact h1
        · intro u hu
          rw [hts] at hu
          rcases List.mem_append.mp hu with hu | hu
          · exact h2 u hu
          · exact hnp u hu
        · intro pb hpb
          rw [hse] at hpb
          exact Nat.lt_of_lt_of_le (h3 pb hpb) hn
        · intro q2 hq2
          rw [hp2] at hq2
          exact absurd hq2 Option.noConfusion
        · obtain ⟨a, ha⟩ := Option.isSome_iff_exists.mp h5
          rcases hsep a ha with h6 | h6 <;> rw [h6] <;> rfl
      subst hq
      simpa only [wakeTask, if_pos rfl] using hgoal
    · simpa only [wakeTask, if_neg hq] using happend
  | stopHls pc k => simpa only [wakeTask] using happend
  | startSleep3000 q => simpa only [wakeTask] using happend
  | startSleep1000 q => simpa only [wakeTask] using happend
  | startCreateVT q => simpa only [wakeTask] using happend
  | startCreateAT q => simpa only [wakeTask] using happend
  | startConsumeV q => simpa only [wakeTask] using happend
  | startConsumeA q => simpa only [wakeTask] using happend

theorem foldl_wake_ok (p : Nat) (ok : Bool) (ts : List Task) (acc : Sys)
    (h : WakeOk acc)
    (hts : ∀ t ∈ ts, startTaskP t = none ∧ isPostStop t = false) :
    WakeOk (ts.foldl (wakeTask p ok) acc) := by
  induction ts generalizing acc with
  | nil => exact h
  | cons t ts ih =>
    rw [List.foldl_cons]
    have htm := hts t (List.mem_cons_self t ts)
    exact ih _ (wakeTask_ok p ok acc t h htm.1 htm.2)
      (fun u hu => hts u (List.mem_cons_of_mem t hu))

/-- Settling a promise, with the immediate reactions of its awaiters,
establishes the invariant when the pool holds no start operation, the
new promise id is fresh, and the trace is clean. -/
theorem settleP_inv (sys : Sys) (p : Nat) (ok : Bool)
    (hflag : sys.st.isConverterRunning = false)
    (hstart : ∀ t ∈ sys.tasks, startTaskP t = none ∧ isPostStop t = false)
    (hsettled : ∀ pb ∈ sys.st.settled, pb.1 < sys.st.nextId)
    (hfield : ∀ q, sys.st.converterStartPromise = some q → q < sys.st.nextId)
    (hp : p < sys.st.nextId)
    (hsep : (sepArm sys.trace).isSome = true) :
    Inv (settleP sys p ok) := by
  have hbase : WakeOk
      { st := { sys.st with settled := sys.st.settled ++ [(p, ok)] },
        tasks := ([] : List Task), trace := sys.trace } := by
    refine ⟨hflag, by simp, ?_, hfield, hsep⟩
    intro pb hpb
    rcases List.mem_append.mp hpb with hpb | hpb
    · exact hsettled pb hpb
    · rw [List.mem_singleton] at hpb
      subst hpb
      exact hp
  have hw : WakeOk (settleP sys p ok) := by
    unfold settleP
    exact foldl_wake_ok p ok sys.tasks _ hbase hstart
  obtain ⟨w1, w2, w3, w4, w5⟩ := hw
  refine ⟨w1, ?_, ?_, w3, w4, ?_⟩
  · intro q hq
    rw [startTasks_nil_of (fun t ht => (w2 t ht).1)] at hq
    exact absurd hq (List.not_mem_nil q)
  · rw [startTasks_nil_of (fun t ht => (w2 t ht).1)]
    exact Nat.zero_le 1
  · obtain ⟨a, ha⟩ := Option.isSome_iff_exists.mp w5
    exact ⟨a, ha, fun _ t ht => (w2 t ht).2⟩

theorem cancelRestartTimer_spec (c : CState) :
    (cancelRestartTimer c).isConverterRunning = c.isConverterRunning
    ∧ (cancelRestartTimer c).converterStartPromise = c.converterStartPromise
    ∧ (cancelRestartTimer c).settled = c.settled
    ∧ (cancelRestartTimer c).nextId = c.nextId
    ∧ (cancelRestartTimer c).videoProducer = c.videoProducer
    ∧ (cancelRestartTimer c).audioProducer = c.audioProducer
    ∧ (cancelRestartTimer c).handlers = c.handlers := by
  unfold cancelRestartTimer
  cases c.restartTimeout <;> simp

/-- An invocation of `stopHlsConverter` from inside `stopConverter`
preserves the invariant. -/
theorem enterStopHlsStopConv_inv (sys : Sys) (k : KCont) (h : Inv sys) :
    Inv (enterStopHlsStopConv sys k) := by
  have hs := enterStopHlsStopConv_spec sys k
  exact Inv_of_ext sys _ h hs.1 (by rw [hs.2.1, h.1]) (Or.inl hs.2.2.1)
    hs.2.2.2.1 hs.2.2.2.2.1 hs.2.2.2.2.2

theorem stopConvHead_spec (c : CState) :
    (stopConvHead c).isConverterRunning = false
    ∧ (stopConvHead c).converterStartPromise = c.converterStartPromise
    ∧ (stopConvHead c).settled = c.settled
    ∧ (stopConvHead c).nextId = c.nextId
    ∧ (stopConvHead c).videoProducer = c.videoProducer
    ∧ (stopConvHead c).audioProducer = c.audioProducer
    ∧ (stopConvHead c).handlers = c.handlers := by
  have h := cancelRestartTimer_spec { c with isConverterRunning := false }
  exact ⟨h.1, h.2.1, h.2.2.1, h.2.2.2.1, h.2.2.2.2.1, h.2.2.2.2.2.1,
    h.2.2.2.2.2.2⟩

/-- An invocation of `stopConverter` preserves the invariant. -/
theorem enterStopConverter_inv (sys : Sys) (k : KCont) (h : Inv sys) :
    Inv (enterStopConverter sys k) := by
  have hflag := h.1
  unfold enterStopConverter
  split
  · next hcond =>
    have hk := kContRun_spec sys.st k
    exact Inv_of_ext sys _ h ⟨[], by rw [List.append_nil], by simp⟩
      (by rw [hk.1, hflag]) (Or.inl hk.2.1) hk.2.2.1 hk.2.2.2
      (fun a ha => Or.inl ha)
  · next hcond =>
    have hh := stopConvHead_spec sys.st
    rcases hfld : sys.st.converterStartPromise with _ | p
    · exact absurd ⟨hflag, hfld⟩ hcond
    · have hc2p : (stopConvHead sys.st).converterStartPromise = some p := by
        rw [hh.2.1]
        exact hfld
      simp only [hc2p]
      split
      · next hlook =>
        have hempty : startTasks sys.tasks = [] := by
          rcases he : startTasks sys.tasks with _ | ⟨q, l⟩
          · rfl
          · exfalso
            have hq := h.2.1 q (by rw [he]; exact List.mem_cons_self q l)
            rw [hfld] at hq
            have hqq := hq.1
            cases hqq
            rw [hh.2.2.1] at hlook
            rw [hq.2] at hlook
            exact Bool.noConfusion hlook
        have h2 : Inv { sys with
            st := { stopConvHead sys.st with converterStartPromise := none } } := by
          refine Inv_of_ext sys _ h ⟨[], by rw [List.append_nil], by simp⟩
            ?_ (Or.inr ⟨rfl, hempty⟩) ?_ ?_ (fun a ha => Or.inl ha)
          · show (stopConvHead sys.st).isConverterRunning = false
            rw [hh.1]
          · show (stopConvHead sys.st).settled = sys.st.settled
            rw [hh.2.2.1]
          · show sys.st.nextId ≤ (stopConvHead sys.st).nextId
            rw [hh.2.2.2.1]
        exact enterStopHlsStopConv_inv _ k h2
      · next hlook =>
        refine Inv_of_ext sys _ h
          ⟨[Task.stopAwaitP p k], rfl, ?_⟩ ?_ ?_ ?_ ?_ (fun a ha => Or.inl ha)
        · intro t ht
          rw [List.mem_singleton] at ht
          subst ht
          exact ⟨rfl, rfl⟩
        · show (stopConvHead sys.st).isConverterRunning = false
          rw [hh.1]
        · exact Or.inl (by rw [hh.2.1])
        · show (stopConvHead sys.st).settled = sys.st.settled
          rw [hh.2.2.1]
        · show sys.st.nextId ≤ (stopConvHead sys.st).nextId
          rw [hh.2.2.2.1]

/-- Field preservation and trace facts for the resumption segments of
`stopHlsConverter`, as for its entry segment. -/
theorem stopHlsAdvance_spec (c : CState) (pc : SPc) :
    (stopHlsAdvance c pc).1.isConverterRunning = c.isConverterRunning
    ∧ (stopHlsAdvance c pc).1.converterStartPromise = c.converterStartPromise
    ∧ (stopHlsAdvance c pc).1.settled = c.settled
    ∧ (stopHlsAdvance c pc).1.nextId = c.nextId
    ∧ (∀ a, (stopHlsAdvance c pc).2.1.foldl sepStep (some a)
        = some (if (stopHlsAdvance c pc).2.2.isNone then false else a)) := by
  cases pc <;> cases h2 : c.hlsAudioTransport <;>
    cases h3 : c.hlsVideoConsumer <;> cases h4 : c.hlsAudioConsumer <;>
    simp [stopHlsAdvance, h2, h3, h4, sepStep, List.foldl]

theorem startForceState_spec (c : CState) :
    (startForceState c).isConverterRunning = false
    ∧ (startForceState c).converterStartPromise = c.converterStartPromise
    ∧ (startForceState c).settled = c.settled
    ∧ (startForceState c).nextId = c.nextId + 1 :=
  ⟨rfl, rfl, rfl, rfl⟩

/-- With no registered start promise there is no in-flight start
operation. -/
theorem startTasks_empty_of_none (sys : Sys) (h : Inv sys)
    (hfld : sys.st.converterStartPromise = none) :
    startTasks sys.tasks = [] := by
  rcases he : startTasks sys.tasks with _ | ⟨q, l⟩
  · rfl
  · exfalso
    have hq := h.2.1 q (by rw [he]; exact List.mem_cons_self q l)
    rw [hfld] at hq
    exact Option.noConfusion hq.1

theorem startTasks_cons (t : Task) (ts : List Task) :
    startTasks (t :: ts) = (startTaskP t).toList ++ startTasks ts := by
  cases h : startTaskP t <;> simp [startTasks, List.filterMap_cons, h]

theorem startTasks_set_eq {ts : List Task} {i : Nat} {told tnew : Task}
    (hg : ts[i]? = some told)
    (hsame : startTaskP tnew = startTaskP told) :
    startTasks (ts.set i tnew) = startTasks ts := by
  have hlt : i < ts.length := by rw [List.getElem?_eq_some] at hg; exact hg.1
  rw [List.set_eq_take_cons_drop tnew hlt, startTasks_append,
    startTasks_cons, hsame]
  conv_rhs => rw [tasks_decomp hg]
  rw [startTasks_append, startTasks_cons]

theorem startTasks_retask_perm {ts : List Task} {i : Nat} {told : Task}
    (hg : ts[i]? = some told) (ts3 : List Task)
    (hsame : startTasks ts3 = (startTaskP told).toList) :
    (startTasks (ts.eraseIdx i ++ ts3)).Perm (startTasks ts) := by
  rw [startTasks_append, List.eraseIdx_eq_take_drop_succ, startTasks_append,
    hsame]
  conv_rhs => rw [tasks_decomp hg]
  rw [startTasks_append, startTasks_cons, List.append_assoc]
  exact List.Perm.append_left _ List.perm_append_comm

/-- Erasing the unique in-flight start task leaves a pool without
start tasks. -/
theorem startTasks_erase_nil {ts : List Task} {i : Nat} {told : Task} {p : Nat}
    (hg : ts[i]? = some told) (hp : startTaskP told = some p)
    (hlen : (startTasks ts).length ≤ 1) :
    startTasks (ts.eraseIdx i) = [] := by
  have hful : startTasks ts = startTasks (ts.take i)
      ++ ((startTaskP told).toList ++ startTasks (ts.drop (i + 1))) := by
    conv_lhs => rw [tasks_decomp hg]
    rw [startTasks_append, startTasks_cons]
  rw [hful, hp] at hlen
  simp only [Option.toList_some, List.length_append, List.length_cons,
    List.length_nil] at hlen
  have ht : startTasks (ts.take i) = [] :=
    List.length_eq_zero.mp (by omega)
  have hd : startTasks (ts.drop (i + 1)) = [] :=
    List.length_eq_zero.mp (by omega)
  rw [List.eraseIdx_eq_take_drop_succ, startTasks_append, ht, hd]
  rfl

/-- Rebuilding the system with a task pool whose start tasks are a
permutation of the old ones, a state preserving the controller
bookkeeping, and a trace satisfying the automaton preserves the
invariant. -/
theorem Inv_core (sys : Sys) (st2 : CState) (ts2 : List Task) (tr2 : Trace)
    (h : Inv sys)
    (hperm : (startTasks ts2).Perm (startTasks sys.tasks))
    (hflag : st2.isConverterRunning = false)
    (hfield : st2.converterStartPromise = sys.st.converterStartPromise)
    (hsettled : st2.settled = sys.st.settled)
    (hnext : sys.st.nextId ≤ st2.nextId)
    (hsep : ∃ a2, sepArm tr2 = some a2
      ∧ (a2 = true → ∀ t ∈ ts2, isPostStop t = false)) :
    Inv { st := st2, tasks := ts2, trace := tr2 } := by
  refine ⟨hflag, ?_, ?_, ?_, ?_, hsep⟩
  · intro q hq
    have hq2 := h.2.1 q (hperm.mem_iff.mp hq)
    rw [hfield, hsettled]
    exact hq2
  · rw [hperm.length_eq]
    exact h.2.2.1
  · intro pb hpb
    rw [hsettled] at hpb
    exact Nat.lt_of_lt_of_le (h.2.2.2.1 pb hpb) hnext
  · intro q hq
    rw [hfield] at hq
    exact Nat.lt_of_lt_of_le (h.2.2.2.2.1 q hq) hnext

theorem setProducerTail_spec (c : CState) (kind : Kind) (pid : Nat) :
    (setProducerTail c kind pid).isConverterRunning = c.isConverterRunning
    ∧ (setProducerTail c kind pid).converterStartPromise
        = c.converterStartPromise
    ∧ (setProducerTail c kind pid).settled = c.settled
    ∧ c.nextId ≤ (setProducerTail c kind pid).nextId := by
  cases kind <;> simp [setProducerTail]

/-- A `setProducer` call preserves the invariant. -/
theorem setProducerCall_inv (sys : Sys) (kind : Kind) (pid : Nat)
    (h : Inv sys) : Inv (setProducerCall sys kind pid) := by
  have hct := cancelRestartTimer_spec sys.st
  have hpre : Inv { sys with st := cancelRestartTimer sys.st } := by
    refine Inv_of_ext sys _ h ⟨[], by simp, by simp⟩ ?_ (Or.inl hct.2.1)
      hct.2.2.1 (Nat.le_of_eq hct.2.2.2.1.symm) (fun a ha => Or.inl ha)
    show (cancelRestartTimer sys.st).isConverterRunning = false
    rw [hct.1, h.1]
  unfold setProducerCall
  dsimp only
  split
  · exact enterStopConverter_inv _ _ hpre
  · have hts := setProducerTail_spec (cancelRestartTimer sys.st) kind pid
    refine Inv_of_ext sys _ h ⟨[], by simp, by simp⟩ ?_ ?_ ?_ ?_
      (fun a ha => Or.inl ha)
    · show (setProducerTail (cancelRestartTimer sys.st) kind
        pid).isConverterRunning = false
      rw [hts.1, hct.1, h.1]
    · refine Or.inl ?_
      show (setProducerTail (cancelRestartTimer sys.st) kind
        pid).converterStartPromise = sys.st.converterStartPromise
      rw [hts.2.1, hct.2.1]
    · show (setProducerTail (cancelRestartTimer sys.st) kind pid).settled
        = sys.st.settled
      rw [hts.2.2.1, hct.2.2.1]
    · show sys.st.nextId ≤ (setProducerTail (cancelRestartTimer sys.st)
        kind pid).nextId
      rw [← hct.2.2.2.1]
      exact hts.2.2.2

/-- A single `transportclose` handler firing preserves the
invariant. -/
theorem runHandler_inv (sys : Sys) (kind : Kind) (pid : Nat) (h : Inv sys) :
    Inv (runHandler sys kind pid) := by
  have hext : ∀ c1 : CState,
      c1.isConverterRunning = sys.st.isConverterRunning →
      c1.converterStartPromise = sys.st.converterStartPromise →
      c1.settled = sys.st.settled → c1.nextId = sys.st.nextId →
      Inv { sys with st := c1 } := by
    intro c1 e1 e2 e3 e4
    exact Inv_of_ext sys _ h ⟨[], by simp, by simp⟩ (by rw [e1, h.1])
      (Or.inl e2) e3 (Nat.le_of_eq e4.symm) (fun a ha => Or.inl ha)
  unfold runHandler
  cases kind <;> dsimp only <;> split <;> split <;>
    first
      | exact enterStopConverter_inv _ _ (hext _ rfl rfl rfl rfl)
      | exact hext _ rfl rfl rfl rfl

theorem foldl_runHandler_inv (pid : Nat) (l : List (Kind × Nat)) (acc : Sys)
    (h : Inv acc) :
    Inv (l.foldl (fun acc2 h2 => runHandler acc2 h2.1 pid) acc) := by
  induction l generalizing acc with
  | nil => exact h
  | cons x xs ih =>
    rw [List.foldl_cons]
    exact ih _ (runHandler_inv acc x.1 pid h)

/-- Closure of a producer transport preserves the invariant. -/
theorem closeProducerCall_inv (sys : Sys) (pid : Nat) (h : Inv sys) :
    Inv (closeProducerCall sys pid) := by
  have h0 : Inv { sys with st := { sys.st with
      handlers := sys.st.handlers.filter (fun h2 => h2.2 != pid) } } :=
    Inv_of_ext sys _ h ⟨[], by simp, by simp⟩ h.1 (Or.inl rfl) rfl
      (Nat.le_refl _) (fun a ha => Or.inl ha)
  unfold closeProducerCall
  exact foldl_runHandler_inv pid _ _ h0

/-- The creation of a start operation preserves the invariant. -/
theorem startCreation_inv (sys : Sys) (h : Inv sys)
    (hfld : sys.st.converterStartPromise = none) :
    Inv (startCreation sys) := by
  have hc := stopHlsCore_spec (startForceState sys.st)
  have hsf := startForceState_spec sys.st
  have hempty := startTasks_empty_of_none sys h hfld
  have hcore : ∀ t0 : Task, startTaskP t0 = some sys.st.nextId →
      isPostStop t0 = false →
      Inv { st := { (stopHlsCore (startForceState sys.st)).1
              with converterStartPromise := some sys.st.nextId },
            tasks := sys.tasks ++ [t0, Task.tryAwait sys.st.nextId],
            trace := sys.trace ++ (stopHlsCore (startForceState sys.st)).2.1 } := by
    intro t0 ht0 ht0p
    have htk : startTasks (sys.tasks ++ [t0, Task.tryAwait sys.st.nextId])
        = [sys.st.nextId] := by
      rw [startTasks_append, hempty, List.nil_append, startTasks_cons, ht0]
      rfl
    obtain ⟨a, ha, hpost⟩ := h.2.2.2.2.2
    refine ⟨?_, ?_, ?_, ?_, ?_, ?_⟩
    · show (stopHlsCore (startForceState sys.st)).1.isConverterRunning = false
      rw [hc.1, hsf.1]
    · intro q hq
      rw [htk, List.mem_singleton] at hq
      subst hq
      constructor
      · rfl
      · show ((stopHlsCore (startForceState sys.st)).1.settled.lookup
          sys.st.nextId) = none
        rw [hc.2.2.1, hsf.2.2.1]
        exact lookup_none_of_bound h.2.2.2.1
    · rw [htk]
      exact Nat.le_refl 1
    · intro pb hpb
      show pb.1 < (stopHlsCore (startForceState sys.st)).1.nextId
      rw [hc.2.2.2.1, hsf.2.2.2]
      have hpb2 : pb ∈ sys.st.settled := by
        have he : (stopHlsCore (startForceState sys.st)).1.settled
            = sys.st.settled := by rw [hc.2.2.1, hsf.2.2.1]
        rw [he] at hpb
        exact hpb
      exact Nat.lt_succ_of_lt (h.2.2.2.1 pb hpb2)
    · intro q hq
      have hq2 : (some sys.st.nextId : Option Nat) = some q := hq
      have hq3 := Option.some.inj hq2
      subst hq3
      show sys.st.nextId < (stopHlsCore (startForceState sys.st)).1.nextId
      rw [hc.2.2.2.1, hsf.2.2.2]
      exact Nat.lt_succ_self _
    · refine ⟨if (stopHlsCore (startForceState sys.st)).2.2.isNone then false
        else a, ?_, ?_⟩
      · rw [sepArm_append, ha]
        exact hc.2.2.2.2.2.2.2.2.2.2 a
      · intro hat t ht
        by_cases hi : (stopHlsCore (startForceState sys.st)).2.2.isNone = true
        · rw [if_pos hi] at hat
          exact Bool.noConfusion hat
        · rw [if_neg hi] at hat
          rcases List.mem_append.mp ht with ht | ht
          · exact hpost hat t ht
          · rcases List.mem_cons.mp ht with ht | ht
            · subst ht
              exact ht0p
            · rw [List.mem_singleton] at ht
              subst ht
              rfl
  cases hpc : (stopHlsCore (startForceState sys.st)).2.2 with
  | some pc =>
    have he : startCreation sys
        = { st := { (stopHlsCore (startForceState sys.st)).1
              with converterStartPromise := some sys.st.nextId },
            tasks := sys.tasks ++ [Task.stopHls pc (SCont.startForce sys.st.nextId),
              Task.tryAwait sys.st.nextId],
            trace := sys.trace ++ (stopHlsCore (startForceState sys.st)).2.1 } := by
      simp only [startCreation, hpc]
    rw [he]
    exact hcore _ rfl rfl
  | none =>
    have he : startCreation sys
        = { st := { (stopHlsCore (startForceState sys.st)).1
              with converterStartPromise := some sys.st.nextId },
            tasks := sys.tasks ++ [Task.startSleep3000 sys.st.nextId,
              Task.tryAwait sys.st.nextId],
            trace := sys.trace ++ (stopHlsCore (startForceState sys.st)).2.1 } := by
      simp only [startCreation, hpc]
    rw [he]
    exact hcore _ rfl rfl

/-- A `tryStartConverter` invocation preserves the invariant. -/
theorem tryStartConverterCall_inv (sys : Sys) (h : Inv sys) :
    Inv (tryStartConverterCall sys) := by
  have h0 : Inv { sys with trace := sys.trace ++ [Ev.tryStart] } := by
    refine Inv_of_ext sys _ h ⟨[], by simp, by simp⟩ h.1 (Or.inl rfl) rfl
      (Nat.le_refl _) ?_
    intro a ha
    left
    rw [sepArm_append, ha]
    rfl
  unfold tryStartConverterCall
  dsimp only
  split
  · exact h0
  · split
    · exact h0
    · next hp =>
      exact startCreation_inv _ h0 (Option.not_isSome_iff_eq_none.mp hp)

theorem notPostStop_of_none {t : Task} (h : startTaskP t = none) :
    isPostStop t = false := by
  cases t <;> simp_all [startTaskP, isPostStop]

/-- Erasing the settling start task and settling its promise, from a
state whose bookkeeping is preserved, restores the invariant. -/
theorem settle_after_erase_inv (sys : Sys) (i : Nat) (told : Task) (p : Nat)
    (ok : Bool) (st2 : CState) (tr2 : Trace) (h : Inv sys)
    (hg : sys.tasks[i]? = some told)
    (hp : startTaskP told = some p)
    (hflag : st2.isConverterRunning = false)
    (hfield : st2.converterStartPromise = sys.st.converterStartPromise)
    (hsettled : st2.settled = sys.st.settled)
    (hnext : sys.st.nextId ≤ st2.nextId)
    (hsep : (sepArm tr2).isSome = true) :
    Inv (settleP { st := st2, tasks := sys.tasks.eraseIdx i, trace := tr2 }
      p ok) := by
  have hz := startTasks_erase_nil hg hp h.2.2.1
  have hpmem : p ∈ startTasks sys.tasks :=
    List.mem_filterMap.mpr ⟨told, List.getElem?_mem hg, hp⟩
  have hpfield := h.2.1 p hpmem
  refine settleP_inv _ p ok hflag ?_ ?_ ?_ ?_ hsep
  · intro t ht
    have h1 : startTaskP t = none := none_of_startTasks_nil hz ht
    exact ⟨h1, notPostStop_of_none h1⟩
  · intro pb hpb
    show pb.1 < st2.nextId
    have hpb2 : pb ∈ sys.st.settled := by
      rw [← hsettled]
      exact hpb
    exact Nat.lt_of_lt_of_le (h.2.2.2.1 pb hpb2) hnext
  · intro q hq
    show q < st2.nextId
    have hq2 : sys.st.converterStartPromise = some q := by
      rw [← hfield]
      exact hq
    exact Nat.lt_of_lt_of_le (h.2.2.2.2.1 q hq2) hnext
  · show p < st2.nextId
    exact Nat.lt_of_lt_of_le (h.2.2.2.2.1 p hpfield.1) hnext

/-- The resumption of any suspended task preserves the invariant. -/
theorem resumeTask_inv (sys : Sys) (i : Nat) (ok : Bool) (sys2 : Sys)
    (h : Inv sys) (hr : resumeTask sys i ok = some sys2) : Inv sys2 := by
  obtain ⟨a, hA, hpost⟩ := h.2.2.2.2.2
  unfold resumeTask at hr
  cases hg : sys.tasks[i]? with
  | none =>
    rw [hg] at hr
    exact Option.noConfusion hr
  | some task =>
    rw [hg] at hr
    cases task with
    | stopHls pc k =>
      have ha := stopHlsAdvance_spec sys.st pc
      dsimp only at hr
      cases hpc : (stopHlsAdvance sys.st pc).2.2 with
      | some pc1 =>
        rw [hpc] at hr
        injection hr with hr2
        subst hr2
        refine Inv_core sys _ _ _ h ?_ ?_ ha.2.1 ha.2.2.1
          (Nat.le_of_eq ha.2.2.2.1.symm) ?_
        · rw [startTasks_set_eq hg (by cases k <;> rfl)]
        · rw [ha.1, h.1]
        · refine ⟨a, ?_, ?_⟩
          · rw [sepArm_append, hA, ha.2.2.2.2 a, hpc]
            rfl
          · intro hat t ht
            rcases List.mem_or_eq_of_mem_set ht with ht | ht
            · exact hpost hat t ht
            · subst ht
              rfl
      | none =>
        rw [hpc] at hr
        have hfalse : sepArm (sys.trace ++ (stopHlsAdvance sys.st pc).2.1)
            = some false := by
          rw [sepArm_append, hA, ha.2.2.2.2 a, hpc]
          rfl
        cases k with
        | startForce p =>
          injection hr with hr2
          subst hr2
          refine Inv_core sys _ _ _ h
            (startTasks_retask_perm hg [Task.startSleep3000 p] rfl)
            (by rw [ha.1, h.1]) ha.2.1 ha.2.2.1
            (Nat.le_of_eq ha.2.2.2.1.symm) ⟨false, hfalse, by simp⟩
        | startEntry p =>
          injection hr with hr2
          subst hr2
          refine Inv_core sys _ _ _ h
            (startTasks_retask_perm hg [Task.startSleep1000 p] rfl)
            (by rw [ha.1, h.1]) ha.2.1 ha.2.2.1
            (Nat.le_of_eq ha.2.2.2.1.symm) ⟨false, hfalse, by simp⟩
        | startCatch p =>
          injection hr with hr2
          subst hr2
          exact settle_after_erase_inv sys i _ p false _ _ h hg rfl
            (by rw [ha.1, h.1]) ha.2.1 ha.2.2.1
            (Nat.le_of_eq ha.2.2.2.1.symm) (by rw [hfalse]; rfl)
        | stopConv k2 =>
          injection hr with hr2
          subst hr2
          have hk := kContRun_spec (stopHlsAdvance sys.st pc).1 k2
          refine Inv_core sys _ _ _ h ?_ ?_ ?_ ?_ ?_
            ⟨false, hfalse, by simp⟩
          · have hpe := startTasks_retask_perm hg ([] : List Task) rfl
            rw [List.append_nil] at hpe
            exact hpe
          · rw [hk.1, ha.1, h.1]
          · rw [hk.2.1, ha.2.1]
          · rw [hk.2.2.1, ha.2.2.1]
          · rw [← ha.2.2.2.1]
            exact hk.2.2.2
    | startSleep3000 p =>
      have hc := stopHlsCore_spec sys.st
      dsimp only at hr
      cases hpc : (stopHlsCore sys.st).2.2 with
      | some pc =>
        rw [hpc] at hr
        injection hr with hr2
        subst hr2
        refine Inv_core sys _ _ _ h (by rw [startTasks_set_eq hg (by rfl)])
          (by rw [hc.1, h.1]) hc.2.1 hc.2.2.1
          (Nat.le_of_eq hc.2.2.2.1.symm) ?_
        refine ⟨a, ?_, ?_⟩
        · rw [sepArm_append, hA, hc.2.2.2.2.2.2.2.2.2.2 a, hpc]
          rfl
        · intro hat t ht
          rcases List.mem_or_eq_of_mem_set ht with ht | ht
          · exact hpost hat t ht
          · subst ht
            rfl
      | none =>
        rw [hpc] at hr
        injection hr with hr2
        subst hr2
        have hfalse : sepArm (sys.trace ++ (stopHlsCore sys.st).2.1)
            = some false := by
          rw [sepArm_append, hA, hc.2.2.2.2.2.2.2.2.2.2 a, hpc]
          rfl
        exact Inv_core sys _ _ _ h (by rw [startTasks_set_eq hg (by rfl)])
          (by rw [hc.1, h.1]) hc.2.1 hc.2.2.1
          (Nat.le_of_eq hc.2.2.2.1.symm) ⟨false, hfalse, by simp⟩
    | startSleep1000 p =>
      injection hr with hr2
      subst hr2
      have haf : a = false := by
        cases a with
        | false => rfl
        | true => exact Bool.noConfusion (hpost rfl _ (List.getElem?_mem hg))
      subst haf
      exact Inv_core sys _ _ _ h (by rw [startTasks_set_eq hg (by rfl)]) h.1 rfl
        rfl (Nat.le_refl _) ⟨false, hA, by simp⟩
    | startCreateVT p =>
      have haf : a = false := by
        cases a with
        | false => rfl
        | true => exact Bool.noConfusion (hpost rfl _ (List.getElem?_mem hg))
      subst haf
      cases ok with
      | true =>
        injection hr with hr2
        subst hr2
        exact Inv_core sys _ _ _ h (by rw [startTasks_set_eq hg (by rfl)]) h.1 rfl
          rfl (Nat.le_refl _) ⟨false, hA, by simp⟩
      | false =>
        injection hr with hr2
        subst hr2
        show Inv (startFailCleanup sys i p)
        have hc := stopHlsCore_spec sys.st
        unfold startFailCleanup
        dsimp only
        cases hpc : (stopHlsCore sys.st).2.2 with
        | some pc =>
          have hfalse : sepArm (sys.trace ++ (stopHlsCore sys.st).2.1)
              = some false := by
            rw [sepArm_append, hA, hc.2.2.2.2.2.2.2.2.2.2 false, hpc]
            simp
          exact Inv_core sys _ _ _ h (by rw [startTasks_set_eq hg (by rfl)])
            (by rw [hc.1, h.1]) hc.2.1 hc.2.2.1
            (Nat.le_of_eq hc.2.2.2.1.symm) ⟨false, hfalse, by simp⟩
        | none =>
          have hfalse : sepArm (sys.trace ++ (stopHlsCore sys.st).2.1)
              = some false := by
            rw [sepArm_append, hA, hc.2.2.2.2.2.2.2.2.2.2 false, hpc]
            simp
          exact settle_after_erase_inv sys i _ p false _ _ h hg rfl
            (by rw [hc.1, h.1]) hc.2.1 hc.2.2.1
            (Nat.le_of_eq hc.2.2.2.1.symm) (by rw [hfalse]; rfl)
    | startCreateAT p =>
      have haf : a = false := by
        cases a with
        | false => rfl
        | true => exact Bool.noConfusion (hpost rfl _ (List.getElem?_mem hg))
      subst haf
      cases ok with
      | true =>
        injection hr with hr2
        subst hr2
        exact Inv_core sys _ _ _ h (by rw [startTasks_set_eq hg (by rfl)]) h.1 rfl
          rfl (Nat.le_refl _) ⟨false, hA, by simp⟩
      | false =>
        injection hr with hr2
        subst hr2
        show Inv (startFailCleanup sys i p)
        have hc := stopHlsCore_spec sys.st
        unfold startFailCleanup
        dsimp only
        cases hpc : (stopHlsCore sys.st).2.2 with
        | some pc =>
          have hfalse : sepArm (sys.trace ++ (stopHlsCore sys.st).2.1)
              = some false := by
            rw [sepArm_append, hA, hc.2.2.2.2.2.2.2.2.2.2 false, hpc]
            simp
          exact Inv_core sys _ _ _ h (by rw [startTasks_set_eq hg (by rfl)])
            (by rw [hc.1, h.1]) hc.2.1 hc.2.2.1
            (Nat.le_of_eq hc.2.2.2.1.symm) ⟨false, hfalse, by simp⟩
        | none =>
          have hfalse : sepArm (sys.trace ++ (stopHlsCore sys.st).2.1)
              = some false := by
            rw [sepArm_append, hA, hc.2.2.2.2.2.2.2.2.2.2 false, hpc]
            simp
          exact settle_after_erase_inv sys i _ p false _ _ h hg rfl
            (by rw [hc.1, h.1]) hc.2.1 hc.2.2.1
            (Nat.le_of_eq hc.2.2.2.1.symm) (by rw [hfalse]; rfl)
    | startConsumeV p =>
      have haf : a = false := by
        cases a with
        | false => rfl
        | true => exact Bool.noConfusion (hpost rfl _ (List.getElem?_mem hg))
      subst haf
      cases ok with
      | true =>
        injection hr with hr2
        subst hr2
        exact Inv_core sys _ _ _ h (by rw [startTasks_set_eq hg (by rfl)]) h.1 rfl
          rfl (Nat.le_refl _) ⟨false, hA, by simp⟩
      | false =>
        injection hr with hr2
        subst hr2
        show Inv (startFailCleanup sys i p)
        have hc := stopHlsCore_spec sys.st
        unfold startFailCleanup
        dsimp only
        cases hpc : (stopHlsCore sys.st).2.2 with
        | some pc =>
          have hfalse : sepArm (sys.trace ++ (stopHlsCore sys.st).2.1)
              = some false := by
            rw [sepArm_append, hA, hc.2.2.2.2.2.2.2.2.2.2 false, hpc]
            simp
          exact Inv_core sys _ _ _ h (by rw [startTasks_set_eq hg (by rfl)])
            (by rw [hc.1, h.1]) hc.2.1 hc.2.2.1
            (Nat.le_of_eq hc.2.2.2.1.symm) ⟨false, hfalse, by simp⟩
        | none =>
          have hfalse : sepArm (sys.trace ++ (stopHlsCore sys.st).2.1)
              = some false := by
            rw [sepArm_append, hA, hc.2.2.2.2.2.2.2.2.2.2 false, hpc]
            simp
          exact settle_after_erase_inv sys i _ p false _ _ h hg rfl
            (by rw [hc.1, h.1]) hc.2.1 hc.2.2.1
            (Nat.le_of_eq hc.2.2.2.1.symm) (by rw [hfalse]; rfl)
    | startConsumeA p =>
      have haf : a = false := by
        cases a with
        | false => rfl
        | true => exact Bool.noConfusion (hpost rfl _ (List.getElem?_mem hg))
      subst haf
      cases ok with
      | true =>
        injection hr with hr2
        subst hr2
        have hsp : sepArm (sys.trace ++ [Ev.spawn sys.st.nextId])
            = some true := by
          rw [sepArm_append, hA]
          rfl
        exact settle_after_erase_inv sys i _ p true _ _ h hg rfl h.1 rfl rfl
          (Nat.le_succ _) (by rw [hsp]; rfl)
      | false =>
        injection hr with hr2
        subst hr2
        show Inv (startFailCleanup sys i p)
        have hc := stopHlsCore_spec sys.st
        unfold startFailCleanup
        dsimp only
        cases hpc : (stopHlsCore sys.st).2.2 with
        | some pc =>
          have hfalse : sepArm (sys.trace ++ (stopHlsCore sys.st).2.1)
              = some false := by
            rw [sepArm_append, hA, hc.2.2.2.2.2.2.2.2.2.2 false, hpc]
            simp
          exact Inv_core sys _ _ _ h (by rw [startTasks_set_eq hg (by rfl)])
            (by rw [hc.1, h.1]) hc.2.1 hc.2.2.1
            (Nat.le_of_eq hc.2.2.2.1.symm) ⟨false, hfalse, by simp⟩
        | none =>
          have hfalse : sepArm (sys.trace ++ (stopHlsCore sys.st).2.1)
              = some false := by
            rw [sepArm_append, hA, hc.2.2.2.2.2.2.2.2.2.2 false, hpc]
            simp
          exact settle_after_erase_inv sys i _ p false _ _ h hg rfl
            (by rw [hc.1, h.1]) hc.2.1 hc.2.2.1
            (Nat.le_of_eq hc.2.2.2.1.symm) (by rw [hfalse]; rfl)
    | tryAwait p => exact Option.noConfusion hr
    | stopAwaitP p k => exact Option.noConfusion hr

/-- Every enabled environment step preserves the invariant. -/
theorem inv_step (sys sys2 : Sys) (e : EnvStep) (h : Inv sys)
    (hs : stepOpt sys e = some sys2) : Inv sys2 := by
  cases e with
  | setP kind pid =>
    injection hs with h2
    subst h2
    exact setProducerCall_inv sys kind pid h
  | timer t =>
    simp only [stepOpt] at hs
    split at hs
    · injection hs with h2
      subst h2
      refine tryStartConverterCall_inv _ ?_
      exact Inv_of_ext sys _ h ⟨[], by rw [List.append_nil], by simp⟩ h.1
        (Or.inl rfl) rfl (Nat.le_refl _) (fun a ha => Or.inl ha)
    · exact Option.noConfusion hs
  | stopCall =>
    injection hs with h2
    subst h2
    exact enterStopConverter_inv sys KCont.nothing h
  | closeProd pid =>
    injection hs with h2
    subst h2
    exact closeProducerCall_inv sys pid h
  | resume i ok => exact resumeTask_inv sys i ok sys2 h hs
  | procExit pid =>
    simp only [stepOpt] at hs
    split at hs
    · injection hs with h2
      subst h2
      refine Inv_of_ext sys _ h ⟨[], by rw [List.append_nil], by simp⟩ h.1
        (Or.inl rfl) rfl (Nat.le_refl _) ?_
      intro a ha
      left
      show sepArm (sys.trace ++ [Ev.procExited pid]) = some a
      rw [sepArm_append, ha]
      rfl
    · exact Option.noConfusion hs

/-- Every reachable system satisfies the inductive invariant. -/
theorem inv_reachable {s : Sys} (h : Reachable s) : Inv s := by
  induction h with
  | init =>
    refine ⟨rfl, ?_, ?_, ?_, ?_, false, rfl, ?_⟩ <;>
      simp [initSys, startTasks]
  | step hr hs ih => exact inv_step _ _ _ ih hs

/-- Any run of environment events from a reachable system ends in a
reachable system; disabled events are skipped. -/
theorem reachable_run (s : Sys) (hs : Reachable s) (es : List EnvStep) :
    Reachable (run s es) := by
  induction es generalizing s with
  | nil => exact hs
  | cons e es ih =>
    have hrun : run s (e :: es) = run ((stepOpt s e).getD s) es := by
      unfold run
      rw [List.foldl_cons]
    rw [hrun]
    cases he : stepOpt s e with
    | none => exact ih s hs
    | some s2 => exact ih s2 (Reachable.step hs he)

/-! ### Claim C1: mutual exclusion of the transcoder subprocess -/

/-- Claim C1: in every reachable system state — for every sequence of
`setProducer` calls with any kinds and producer ids, any timing of the
debounce firings, any interleaving of external-operation completions
and outcomes, external `stopConverter` calls, producer closes and
subprocess exits — the event trace satisfies the mutual-exclusion
automaton: the supervisor start (the ffmpeg spawn) is never invoked a
second time without an intervening `stopHlsConverter` invocation run
to completion. In particular, at most one transcoder subprocess is
running at any time. -/
theorem C1_transcoder_mutual_exclusion (s : Sys) (h : Reachable s) :
    mutexOk s.trace = true := by
  obtain ⟨a, ha, -⟩ := (inv_reachable h).2.2.2.2.2
  unfold mutexOk
  rw [ha]
  rfl

/-- Witness for C1 on the concrete restart execution, whose trace
contains two spawns separated by a completed stop. -/
theorem C1_transcoder_mutual_exclusion_witness :
    mutexOk (run initSys restartSteps).trace = true :=
  C1_transcoder_mutual_exclusion _
    (reachable_run initSys Reachable.init restartSteps)

/-! ### Claim C2: the running-flag invariant is vacuous -/

/-- Claim C2 (code bug): the running flag reported by `getState()` is
false in every reachable state — `tryStartConverter` sets it true but
the synchronous `forceStopConverter` call inside
`startConverterInternal` resets it to false in the same segment, and
the success path never restores it — so the guard of the claimed
invariant never holds; yet after the concrete successful start both
producers are tracked and a subprocess handle exists while the flag
still reads false. -/
theorem C2_running_flag_never_true (s : Sys) (h : Reachable s) :
    (getState s.st).isConverterRunning = false
    ∧ ((run initSys startSteps).st.ffmpegProcess = some 3
      ∧ (run initSys startSteps).st.videoProducer = some 1
      ∧ (run initSys startSteps).st.audioProducer = some 2
      ∧ (getState (run initSys startSteps).st).isConverterRunning = false) := by
  refine ⟨?_, by decide, by decide, by decide, by decide⟩
  show s.st.isConverterRunning = false
  exact (inv_reachable h).1

/-- Witness for C2 at the state reached by the successful start. -/
theorem C2_running_flag_never_true_witness :
    (getState (run initSys startSteps).st).isConverterRunning = false
    ∧ ((run initSys startSteps).st.ffmpegProcess = some 3
      ∧ (run initSys startSteps).st.videoProducer = some 1
      ∧ (run initSys startSteps).st.audioProducer = some 2
      ∧ (getState (run initSys startSteps).st).isConverterRunning = false) :=
  C2_running_flag_never_true _
    (reachable_run initSys Reachable.init startSteps)

/-! ### Claim C4 (amended): stop kills without awaiting exit -/

/-- Claim C4 (corrected): from every state holding a subprocess
handle, a `stopHlsConverter` invocation run from entry to completion
emits the termination signal for that subprocess and nulls the handle,
but it never waits for the subprocess exit: no exit event occurs
within the invocation and the set of exited subprocesses is unchanged
when it returns. -/
theorem C4_amended_stop_kills_without_awaiting_exit (c : CState) (p : Nat)
    (hf : c.ffmpegProcess = some p) :
    Ev.kill p ∈ (stopHlsRunAll c).2
    ∧ (stopHlsRunAll c).1.ffmpegProcess = none
    ∧ (∀ q, Ev.procExited q ∉ (stopHlsRunAll c).2)
    ∧ (stopHlsRunAll c).1.exited = c.exited := by
  cases h1 : c.hlsVideoTransport <;> cases h2 : c.hlsAudioTransport <;>
    cases h3 : c.hlsVideoConsumer <;> cases h4 : c.hlsAudioConsumer <;>
    simp [stopHlsRunAll, stopHlsCore, stopHlsFuel, stopHlsAdvance,
      hf, h1, h2, h3, h4]

/-- Witness for the amended C4 at the state reached by the successful
start, whose subprocess has pid 3. -/
theorem C4_amended_witness :
    Ev.kill 3 ∈ (stopHlsRunAll (run initSys startSteps).st).2
    ∧ (stopHlsRunAll (run initSys startSteps).st).1.ffmpegProcess = none
    ∧ (∀ q, Ev.procExited q ∉ (stopHlsRunAll (run initSys startSteps).st).2)
    ∧ (stopHlsRunAll (run initSys startSteps).st).1.exited
        = (run initSys startSteps).st.exited :=
  C4_amended_stop_kills_without_awaiting_exit _ 3 (by decide)

/-- Witness for C6 from the initial system, with producers 10 and 20. -/
theorem C6_debounce_coalesce_witness :
    (setProducerCall (setProducerCall initSys Kind.video 10) Kind.audio 20).st.liveTimers
        = [initSys.st.nextId + 1]
    ∧ stepOpt (setProducerCall (setProducerCall initSys Kind.video 10) Kind.audio 20)
        (EnvStep.timer initSys.st.nextId) = none
    ∧ (∃ sys3,
        stepOpt (setProducerCall (setProducerCall initSys Kind.video 10) Kind.audio 20)
          (EnvStep.timer (initSys.st.nextId + 1)) = some sys3
        ∧ tryCount sys3.trace = tryCount initSys.trace + 1
        ∧ sys3.st.liveTimers = []) :=
  C6_debounce_coalesce initSys 10 20 rfl rfl rfl rfl

end HLSBridge
